import Mathlib

/-
  Verification of the saphyr YAML scanner (src/scanner.rs).

  Shallow embedding conventions:
  * Unicode scalar values are modelled as natural-number code points
    (the input contract says the source is a sequence of Unicode scalar
    values; reading past the end of the source yields the NUL sentinel 0,
    matching rdr.next().unwrap_or 0).
  * Rust String values inside tokens are modelled as List Nat of code
    points; String.push is append at the end.
  * VecDeque of tokens: list head = front of the queue, push_back
    appends at the end, positional insert is List.insertIdx.
  * Vec stacks (simple_keys, indents): list head = top of the stack
    (Rust last / push / pop at the end of the Vec).  The only place the
    bottom-to-top order could matter is the iteration in
    stale_simple_keys, where it is unobservable (the same error value is
    produced whichever stale required key is met first).
  * Every Rust loop becomes a fuel-indexed recursive definition; running
    out of fuel is the distinguished result Res.fuelOut.  Places where
    the Rust code would panic (unwrap on an empty container that the
    scanner invariants keep non-empty) are likewise mapped to
    Res.fuelOut for fallible contexts or to the identity for pure ones,
    and are marked with a comment.
-/

namespace Yaml

/-- A location in a yaml document (scanner.rs struct Marker):
byte index, 1-based line, 0-based column. -/
structure Marker where
  index : Nat
  line : Nat
  col : Nat
deriving DecidableEq, Repr

/-- An error that occured while scanning (scanner.rs struct ScanError). -/
structure ScanError where
  mark : Marker
  info : String
deriving DecidableEq, Repr

inductive TEncoding where
  | Utf8
deriving DecidableEq, Repr

inductive TScalarStyle where
  | Any
  | Plain
  | SingleQuoted
  | DoubleQuoted
  | Literal
  | Foled
deriving DecidableEq, Repr

/-- scanner.rs enum TokenType.  The handle and the tag fields named
pfx and sfx stand for the Rust fields named for the prefix and the
suffix of a tag. -/
inductive TokenType where
  | NoToken
  | StreamStart (enc : TEncoding)
  | StreamEnd
  | VersionDirective (major minor : Nat)
  | TagDirective (handle pfx : List Nat)
  | DocumentStart
  | DocumentEnd
  | BlockSequenceStart
  | BlockMappingStart
  | BlockEnd
  | FlowSequenceStart
  | FlowSequenceEnd
  | FlowMappingStart
  | FlowMappingEnd
  | BlockEntry
  | FlowEntry
  | Key
  | Value
  | Alias (name : List Nat)
  | Anchor (name : List Nat)
  | Tag (handle sfx : List Nat)
  | Scalar (style : TScalarStyle) (value : List Nat)
deriving DecidableEq, Repr

/-- scanner.rs struct Token(Marker, TokenType). -/
structure Token where
  mark : Marker
  kind : TokenType
deriving DecidableEq, Repr

structure SimpleKey where
  possible : Bool
  required : Bool
  token_number : Nat
  mark : Marker
deriving DecidableEq, Repr

def SimpleKey.new (mark : Marker) : SimpleKey :=
  { possible := false, required := false, token_number := 0, mark := mark }

/-- scanner.rs struct Scanner.  The reader rdr is the not yet pulled
remainder of the character source. -/
structure Scanner where
  rdr : List Nat
  mark : Marker
  tokens : List Token
  buffer : List Nat
  error : Option ScanError
  stream_start_produced : Bool
  stream_end_produced : Bool
  adjacent_value_allowed_at : Nat
  simple_key_allowed : Bool
  simple_keys : List SimpleKey
  indent : Int
  indents : List Int
  flow_level : Nat
  tokens_parsed : Nat
  token_available : Bool
  leading_whitespace : Bool
deriving DecidableEq, Repr

/-- Scanner::new. -/
def Scanner.new (rdr : List Nat) : Scanner :=
  { rdr := rdr
    mark := ⟨0, 1, 0⟩
    tokens := []
    buffer := []
    error := none
    stream_start_produced := false
    stream_end_produced := false
    adjacent_value_allowed_at := 0
    simple_key_allowed := true
    simple_keys := []
    indent := -1
    indents := []
    flow_level := 0
    tokens_parsed := 0
    token_available := false
    leading_whitespace := true }

/-- Result of a scanner step: success with a value and the new scanner
state, a scan error, or fuel exhaustion (also used for the unreachable
panics, see the header comment). -/
inductive Res (α : Type) where
  | ok (a : α) (s : Scanner)
  | err (e : ScanError)
  | fuelOut
deriving DecidableEq, Repr

/-- The Rust question-mark operator: thread the state of a successful
step into the continuation, propagate errors and fuel exhaustion. -/
def rbind {α β : Type} (r : Res α) (f : α → Scanner → Res β) : Res β :=
  match r with
  | .ok a s => f a s
  | .err e => .err e
  | .fuelOut => .fuelOut

/-! ## Character predicates (scanner.rs free functions) -/

/-- Check whether the character is nil (code point 0). -/
def is_z (c : Nat) : Bool := c == 0

/-- Check whether the character is a line break (CR 13 or LF 10). -/
def is_break (c : Nat) : Bool := c == 10 || c == 13

def is_breakz (c : Nat) : Bool := is_break c || is_z c

/-- Check whether the character is a whitespace (space 32 or tab 9). -/
def is_blank (c : Nat) : Bool := c == 32 || c == 9

def is_blankz (c : Nat) : Bool := is_blank c || is_breakz c

/-- Check whether the character is an ascii digit. -/
def is_digit (c : Nat) : Bool := 48 ≤ c && c ≤ 57

/-- Check whether the character is a digit, letter, underscore or dash. -/
def is_alpha (c : Nat) : Bool :=
  (48 ≤ c && c ≤ 57) || (97 ≤ c && c ≤ 122) || (65 ≤ c && c ≤ 90) || c == 95 || c == 45

/-- Check whether the character is a hexadecimal character. -/
def is_hex (c : Nat) : Bool :=
  (48 ≤ c && c ≤ 57) || (97 ≤ c && c ≤ 102) || (65 ≤ c && c ≤ 70)

/-- Convert the hexadecimal digit to an integer (the Rust function is
unreachable outside the three ranges; 0 stands for that dead branch). -/
def as_hex (c : Nat) : Nat :=
  if 48 ≤ c && c ≤ 57 then c - 48
  else if 97 ≤ c && c ≤ 102 then c - 97 + 10
  else if 65 ≤ c && c ≤ 70 then c - 65 + 10
  else 0

/-- Check whether the character is a YAML flow character (comma 44 or
one of the four brackets 91, 93, 123, 125). -/
def is_flow (c : Nat) : Bool :=
  c == 44 || c == 91 || c == 93 || c == 123 || c == 125

/-- std char::from_u32: some code point when it is a Unicode scalar
value (below 0x110000 = 1114112 and outside the surrogate range
0xD800 = 55296 ..= 0xDFFF = 57343). -/
def char_from_u32 (n : Nat) : Option Nat :=
  if n < 1114112 && !(55296 ≤ n && n ≤ 57343) then some n else none

/-! ## Lookahead buffer and position tracking -/

/-- One pull of the reader iterator: next().unwrap_or NUL. -/
def rdr_next : List Nat → Nat × List Nat
  | [] => (0, [])
  | c :: rest => (c, rest)

def pull_chars : Nat → Scanner → Scanner
  | 0, s => s
  | n + 1, s =>
    let p := rdr_next s.rdr
    pull_chars n { s with buffer := s.buffer ++ [p.1], rdr := p.2 }

/-- Scanner::lookahead: fill the buffer with at least count characters. -/
def lookahead (count : Nat) (s : Scanner) : Scanner :=
  if count ≤ s.buffer.length then s
  else pull_chars (count - s.buffer.length) s

/-- Scanner::ch: the next character in the buffer (the Rust indexing
would panic on an empty buffer, which callers rule out by a prior
lookahead; headD 0 is the stand-in). -/
def ch (s : Scanner) : Nat := s.buffer.headD 0

/-- Scanner::buffer indexing with the same convention as ch. -/
def buf (s : Scanner) (i : Nat) : Nat := s.buffer.getD i 0

def ch_is (s : Scanner) (c : Nat) : Bool := buf s 0 == c

/-- Scanner::skip: consume the next character, remove it from the
buffer and update the mark. -/
def skip (s : Scanner) : Scanner :=
  let c := s.buffer.headD 0
  let s1 := { s with buffer := s.buffer.tail,
                     mark := { s.mark with index := s.mark.index + 1 } }
  if c == 10 then
    { s1 with leading_whitespace := true,
              mark := { s1.mark with line := s1.mark.line + 1, col := 0 } }
  else
    { s1 with
        leading_whitespace :=
          if s1.leading_whitespace && !is_blank c then false else s1.leading_whitespace,
        mark := { s1.mark with col := s1.mark.col + 1 } }

/-- Scanner::skip_line: consume a CR, LF or CRLF linebreak, if any. -/
def skip_line (s : Scanner) : Scanner :=
  if buf s 0 == 13 && buf s 1 == 10 then skip (skip s)
  else if is_break (buf s 0) then skip s
  else s

/-- Scanner::read_break: consume a linebreak, pushing one LF onto the
accumulated string (the Rust function is unreachable when the buffer
does not hold a break; the identity stands for that dead branch). -/
def read_break (acc : List Nat) (s : Scanner) : List Nat × Scanner :=
  if buf s 0 == 13 && buf s 1 == 10 then (acc ++ [10], skip (skip s))
  else if buf s 0 == 13 || buf s 0 == 10 then (acc ++ [10], skip s)
  else (acc, s)

def skipN : Nat → Scanner → Scanner
  | 0, s => s
  | n + 1, s => skipN n (skip s)

/-! ## Token queue and simple state updates -/

/-- Scanner::insert_token (the Rust assert pos <= len holds at every
call site; List.insertIdx is the positional insert). -/
def insert_token (s : Scanner) (pos : Nat) (tok : Token) : Scanner :=
  { s with tokens := s.tokens.insertIdx pos tok }

def allow_simple_key (s : Scanner) : Scanner := { s with simple_key_allowed := true }

def disallow_simple_key (s : Scanner) : Scanner := { s with simple_key_allowed := false }

/-- Scanner::is_within_block. -/
def is_within_block (s : Scanner) : Bool := !s.indents.isEmpty && s.flow_level == 0

/-! ## Simple-key tracking -/

/-- The loop body of Scanner::stale_simple_keys over the stack. -/
def stale_keys_go (mark : Marker) : List SimpleKey → Except ScanError (List SimpleKey)
  | [] => .ok []
  | sk :: rest =>
    if sk.possible && (decide (sk.mark.line < mark.line) || decide (sk.mark.index + 1024 < mark.index)) then
      if sk.required then .error ⟨mark, "simple key expect ':'"⟩
      else
        match stale_keys_go mark rest with
        | .error e => .error e
        | .ok rest2 => .ok ({ sk with possible := false } :: rest2)
    else
      match stale_keys_go mark rest with
      | .error e => .error e
      | .ok rest2 => .ok (sk :: rest2)

/-- Scanner::stale_simple_keys. -/
def stale_simple_keys (s : Scanner) : Res Unit :=
  match stale_keys_go s.mark s.simple_keys with
  | .error e => .err e
  | .ok sks => .ok () { s with simple_keys := sks }

/-- Scanner::remove_simple_key (last_mut().unwrap() on the never-empty
stack: the empty case maps to fuelOut). -/
def remove_simple_key (s : Scanner) : Res Unit :=
  match s.simple_keys with
  | [] => .fuelOut
  | last :: rest =>
    if last.possible && last.required then .err ⟨s.mark, "simple key expected"⟩
    else .ok () { s with simple_keys := { last with possible := false } :: rest }

/-- Scanner::save_simple_key. -/
def save_simple_key (s : Scanner) : Res Unit :=
  let required : Bool := decide (0 < s.flow_level) && s.indent == ((s.mark.col : Int))
  if s.simple_key_allowed then
    let sk : SimpleKey :=
      { possible := true, required := required,
        token_number := s.tokens_parsed + s.tokens.length, mark := s.mark }
    rbind (remove_simple_key s) fun _ s1 => .ok () { s1 with simple_keys := sk :: s1.simple_keys.tail }
  else .ok () s

/-! ## Indent management -/

/-- The loop of Scanner::unroll_indent: pop indents while further
indented than col, emitting BlockEnd (pop on an empty stack would
panic in Rust and cannot happen: indent is -1 there). -/
def unroll_go (col : Int) (mark : Marker) (indent : Int) :
    List Int → List Token → Int × List Int × List Token
  | [], toks => (indent, [], toks)
  | i :: rest, toks =>
    if col < indent then
      unroll_go col mark i rest (toks ++ [⟨mark, .BlockEnd⟩])
    else (indent, i :: rest, toks)

/-- Scanner::unroll_indent. -/
def unroll_indent (col : Int) (s : Scanner) : Scanner :=
  if 0 < s.flow_level then s
  else
    let r := unroll_go col s.mark s.indent s.indents s.tokens
    { s with indent := r.1, indents := r.2.1, tokens := r.2.2 }

/-- Scanner::roll_indent. -/
def roll_indent (col : Nat) (number : Option Nat) (tok : TokenType) (mark : Marker)
    (s : Scanner) : Scanner :=
  if 0 < s.flow_level then s
  else if s.indent < (col : Int) then
    let s1 := { s with indents := s.indent :: s.indents, indent := (col : Int) }
    match number with
    | some n => insert_token s1 (n - s1.tokens_parsed) ⟨mark, tok⟩
    | none => { s1 with tokens := s1.tokens ++ [⟨mark, tok⟩] }
  else s

/-! ## Whitespace and comment skipping -/

/-- The comment loop shape shared by skip_to_next_token and
scan_directive: while the buffered character is not a break or NUL,
skip it and look one ahead. -/
def skip_while_not_breakz : Nat → Scanner → Res Unit
  | 0, _ => .fuelOut
  | fuel + 1, s =>
    if !is_breakz (ch s) then skip_while_not_breakz fuel (lookahead 1 (skip s))
    else .ok () s

/-- The blank loop shape: while is_blank(ch), skip and look ahead. -/
def skip_blanks : Nat → Scanner → Res Unit
  | 0, _ => .fuelOut
  | fuel + 1, s =>
    if is_blank (ch s) then skip_blanks fuel (lookahead 1 (skip s))
    else .ok () s

/-- The blank loop shape of scan_block_scalar: while
is_blank(look_ch), skip. -/
def skip_blanks_look : Nat → Scanner → Res Unit
  | 0, _ => .fuelOut
  | fuel + 1, s =>
    let s := lookahead 1 s
    if is_blank (ch s) then skip_blanks_look fuel (skip s)
    else .ok () s

/-- The comment loop shape of scan_block_scalar: while the looked-at
character is not a break or NUL, skip. -/
def skip_to_breakz_look : Nat → Scanner → Res Unit
  | 0, _ => .fuelOut
  | fuel + 1, s =>
    let s := lookahead 1 s
    if !is_breakz (ch s) then skip_to_breakz_look fuel (skip s)
    else .ok () s

/-- Scanner::skip_to_next_token. -/
def skip_to_next_token : Nat → Scanner → Res Unit
  | 0, _ => .fuelOut
  | fuel + 1, s =>
    let s := lookahead 1 s
    let c := ch s
    if c == 32 then skip_to_next_token fuel (skip s)
    else if c == 9 && is_within_block s && s.leading_whitespace
            && decide ((s.mark.col : Int) < s.indent) then
      .err ⟨s.mark, "tabs disallowed within this context (block indentation)"⟩
    else if c == 9 then skip_to_next_token fuel (skip s)
    else if c == 10 || c == 13 then
      let s := lookahead 2 s
      let s := skip_line s
      let s := if s.flow_level == 0 then allow_simple_key s else s
      skip_to_next_token fuel s
    else if c == 35 then
      rbind (skip_while_not_breakz fuel s) fun _ s => skip_to_next_token fuel s
    else .ok () s

/-! ## Stream frame, entries, keys, values -/

/-- Scanner::fetch_stream_start. -/
def fetch_stream_start (s : Scanner) : Scanner :=
  let mark := s.mark
  { s with indent := -1
           stream_start_produced := true
           simple_key_allowed := true
           tokens := s.tokens ++ [⟨mark, .StreamStart .Utf8⟩]
           simple_keys := SimpleKey.new ⟨0, 0, 0⟩ :: s.simple_keys }

/-- Scanner::fetch_stream_end. -/
def fetch_stream_end (s : Scanner) : Res Unit :=
  let s := if s.mark.col != 0 then
      { s with mark := { s.mark with col := 0, line := s.mark.line + 1 } }
    else s
  let s := unroll_indent (-1) s
  rbind (remove_simple_key s) fun _ s =>
    let s := disallow_simple_key s
    .ok () { s with tokens := s.tokens ++ [⟨s.mark, .StreamEnd⟩] }

/-- Scanner::fetch_document_indicator. -/
def fetch_document_indicator (t : TokenType) (s : Scanner) : Res Unit :=
  let s := unroll_indent (-1) s
  rbind (remove_simple_key s) fun _ s =>
    let s := disallow_simple_key s
    let mark := s.mark
    let s := skip (skip (skip s))
    .ok () { s with tokens := s.tokens ++ [⟨mark, t⟩] }

/-- Scanner::increase_flow_level. -/
def increase_flow_level (s : Scanner) : Res Unit :=
  let s := { s with simple_keys := SimpleKey.new ⟨0, 0, 0⟩ :: s.simple_keys }
  if s.flow_level == 255 then .err ⟨s.mark, "recursion limit exceeded"⟩
  else .ok () { s with flow_level := s.flow_level + 1 }

/-- Scanner::decrease_flow_level. -/
def decrease_flow_level (s : Scanner) : Scanner :=
  if 0 < s.flow_level then
    { s with flow_level := s.flow_level - 1, simple_keys := s.simple_keys.tail }
  else s

/-- Scanner::fetch_flow_collection_start. -/
def fetch_flow_collection_start (tok : TokenType) (s : Scanner) : Res Unit :=
  rbind (save_simple_key s) fun _ s =>
    rbind (increase_flow_level s) fun _ s =>
      let s := allow_simple_key s
      let start_mark := s.mark
      let s := skip s
      .ok () { s with tokens := s.tokens ++ [⟨start_mark, tok⟩] }

/-- Scanner::fetch_flow_collection_end. -/
def fetch_flow_collection_end (tok : TokenType) (s : Scanner) : Res Unit :=
  rbind (remove_simple_key s) fun _ s =>
    let s := decrease_flow_level s
    let s := disallow_simple_key s
    let start_mark := s.mark
    let s := skip s
    .ok () { s with tokens := s.tokens ++ [⟨start_mark, tok⟩] }

/-- Scanner::fetch_flow_entry. -/
def fetch_flow_entry (s : Scanner) : Res Unit :=
  rbind (remove_simple_key s) fun _ s =>
    let s := allow_simple_key s
    let start_mark := s.mark
    let s := skip s
    .ok () { s with tokens := s.tokens ++ [⟨start_mark, .FlowEntry⟩] }

/-- Scanner::fetch_block_entry. -/
def fetch_block_entry (s : Scanner) : Res Unit :=
  if s.flow_level == 0 then
    if !s.simple_key_allowed then
      .err ⟨s.mark, "block sequence entries are not allowed in this context"⟩
    else
      let mark := s.mark
      let s := roll_indent mark.col none .BlockSequenceStart mark s
      rbind (remove_simple_key s) fun _ s =>
        let s := allow_simple_key s
        let start_mark := s.mark
        let s := skip s
        .ok () { s with tokens := s.tokens ++ [⟨start_mark, .BlockEntry⟩] }
  else
    .err ⟨s.mark, "\"-\" is only valid inside a block"⟩

/-- Scanner::fetch_key. -/
def fetch_key (s : Scanner) : Res Unit :=
  let start_mark := s.mark
  if s.flow_level == 0 && !s.simple_key_allowed then
    .err ⟨s.mark, "mapping keys are not allowed in this context"⟩
  else
    let s := if s.flow_level == 0 then
        roll_indent start_mark.col none .BlockMappingStart start_mark s
      else s
    rbind (remove_simple_key s) fun _ s =>
      let s := if s.flow_level == 0 then allow_simple_key s else disallow_simple_key s
      let s := skip s
      .ok () { s with tokens := s.tokens ++ [⟨start_mark, .Key⟩] }

/-- Scanner::fetch_value. -/
def fetch_value (s : Scanner) : Res Unit :=
  match s.simple_keys with
  | [] => .fuelOut
  | sk :: _ =>
    let start_mark := s.mark
    if sk.possible then
      let tok : Token := ⟨sk.mark, .Key⟩
      let tokens_parsed := s.tokens_parsed
      let s := insert_token s (sk.token_number - tokens_parsed) tok
      let s := roll_indent sk.mark.col (some sk.token_number) .BlockMappingStart start_mark s
      let s := { s with simple_keys :=
                  match s.simple_keys with
                  | [] => []
                  | top :: rest => { top with possible := false } :: rest }
      let s := disallow_simple_key s
      let s := skip s
      .ok () { s with tokens := s.tokens ++ [⟨start_mark, .Value⟩] }
    else
      if s.flow_level == 0 && !s.simple_key_allowed then
        .err ⟨start_mark, "mapping values are not allowed in this context"⟩
      else
        let s := if s.flow_level == 0 then
            roll_indent start_mark.col none .BlockMappingStart start_mark s
          else s
        let s := if s.flow_level == 0 then allow_simple_key s else disallow_simple_key s
        let s := skip s
        .ok () { s with tokens := s.tokens ++ [⟨start_mark, .Value⟩] }

/-! ## Directives -/

/-- The name loop of Scanner::scan_directive_name. -/
def sdn_loop : Nat → List Nat → Scanner → Res (List Nat)
  | 0, _, _ => .fuelOut
  | fuel + 1, acc, s =>
    if is_alpha (ch s) then sdn_loop fuel (acc ++ [ch s]) (lookahead 1 (skip s))
    else .ok acc s

/-- Scanner::scan_directive_name. -/
def scan_directive_name (fuel : Nat) (s : Scanner) : Res (List Nat) :=
  let start_mark := s.mark
  rbind (sdn_loop fuel [] (lookahead 1 s)) fun string s =>
    if string.isEmpty then
      .err ⟨start_mark, "while scanning a directive, could not find expected directive name"⟩
    else if !is_blankz (ch s) then
      .err ⟨start_mark, "while scanning a directive, found unexpected non-alphabetical character"⟩
    else .ok string s

/-- The digit loop of Scanner::scan_version_directive_number,
accumulating the value and the digit count. -/
def svdn_loop : Nat → Marker → Nat → Nat → Scanner → Res (Nat × Nat)
  | 0, _, _, _, _ => .fuelOut
  | fuel + 1, mark, val, length, s =>
    if is_digit (ch s) then
      if 9 < length + 1 then
        .err ⟨mark, "while scanning a YAML directive, found extremely long version number"⟩
      else svdn_loop fuel mark (val * 10 + (ch s - 48)) (length + 1) (lookahead 1 (skip s))
    else .ok (val, length) s

/-- Scanner::scan_version_directive_number. -/
def scan_version_directive_number (fuel : Nat) (mark : Marker) (s : Scanner) : Res Nat :=
  rbind (svdn_loop fuel mark 0 0 (lookahead 1 s)) fun vl s =>
    if vl.2 == 0 then
      .err ⟨mark, "while scanning a YAML directive, did not find expected version number"⟩
    else .ok vl.1 s

/-- Scanner::scan_version_directive_value. -/
def scan_version_directive_value (fuel : Nat) (mark : Marker) (s : Scanner) : Res Token :=
  rbind (skip_blanks fuel (lookahead 1 s)) fun _ s =>
    rbind (scan_version_directive_number fuel mark s) fun major s =>
      if ch s != 46 then
        .err ⟨mark, "while scanning a YAML directive, did not find expected digit or '.' character"⟩
      else
        rbind (scan_version_directive_number fuel mark (skip s)) fun minor s => .ok ⟨mark, .VersionDirective major minor⟩ s

/-- The alpha loop of Scanner::scan_tag_handle: while
is_alpha(look_ch), push and skip. -/
def sth_loop : Nat → List Nat → Scanner → Res (List Nat)
  | 0, _, _ => .fuelOut
  | fuel + 1, acc, s =>
    let s := lookahead 1 s
    if is_alpha (ch s) then sth_loop fuel (acc ++ [ch s]) (skip s)
    else .ok acc s

/-- Scanner::scan_tag_handle. -/
def scan_tag_handle (fuel : Nat) (directive : Bool) (mark : Marker) (s : Scanner) :
    Res (List Nat) :=
  let s := lookahead 1 s
  if ch s != 33 then
    .err ⟨mark, "while scanning a tag, did not find expected '!'"⟩
  else
    rbind (sth_loop fuel [33] (skip s)) fun string s =>
      if ch s == 33 then .ok (string ++ [33]) (skip s)
      else if directive && string != [33] then
        .err ⟨mark, "while parsing a tag directive, did not find expected '!'"⟩
      else .ok string s

/-- The character class of a tag URI (the while-match of
Scanner::scan_tag_uri). -/
def uri_char (c : Nat) : Bool :=
  c == 59 || c == 47 || c == 63 || c == 58 || c == 64 || c == 38 ||
  c == 61 || c == 43 || c == 36 || c == 44 || c == 46 || c == 33 ||
  c == 126 || c == 42 || c == 39 || c == 40 || c == 41 || c == 91 || c == 93 ||
  c == 37 || is_alpha c

/-- The octet loop of Scanner::scan_uri_escapes, carrying the running
width and code; returns the assembled code. -/
def sue_loop : Nat → Marker → Nat → Nat → Scanner → Res Nat
  | 0, _, _, _, _ => .fuelOut
  | fuel + 1, mark, width, code, s =>
    let s := lookahead 3 s
    if !(ch s == 37 && is_hex (buf s 1) && is_hex (buf s 2)) then
      .err ⟨mark, "while parsing a tag, did not find URI escaped octet"⟩
    else
      let octet := as_hex (buf s 1) * 16 + as_hex (buf s 2)
      if width == 0 then
        let w : Nat :=
          if octet &&& 128 == 0 then 1
          else if octet &&& 224 == 192 then 2
          else if octet &&& 240 == 224 then 3
          else if octet &&& 248 == 240 then 4
          else 0
        if w == 0 then
          .err ⟨mark, "while parsing a tag, found an incorrect leading UTF-8 octet"⟩
        else
          let s := skip (skip (skip s))
          if w - 1 == 0 then .ok octet s
          else sue_loop fuel mark (w - 1) octet s
      else
        if octet &&& 192 != 128 then
          .err ⟨mark, "while parsing a tag, found an incorrect trailing UTF-8 octet"⟩
        else
          let code := code * 256 + octet
          let s := skip (skip (skip s))
          if width - 1 == 0 then .ok code s
          else sue_loop fuel mark (width - 1) code s

/-- Scanner::scan_uri_escapes. -/
def scan_uri_escapes (fuel : Nat) (directive : Bool) (mark : Marker) (s : Scanner) :
    Res Nat :=
  rbind (sue_loop fuel mark 0 0 s) fun code s =>
    match char_from_u32 code with
    | some c => .ok c s
    | none => .err ⟨mark, "while parsing a tag, found an invalid UTF-8 codepoint"⟩

/-- The character loop of Scanner::scan_tag_uri. -/
def stu_loop : Nat → Bool → Marker → List Nat → Nat → Scanner → Res (List Nat × Nat)
  | 0, _, _, _, _, _ => .fuelOut
  | fuel + 1, directive, mark, string, length, s =>
    let s := lookahead 1 s
    let c := ch s
    if uri_char c then
      if c == 37 then
        rbind (scan_uri_escapes fuel directive mark s) fun chr s => stu_loop fuel directive mark (string ++ [chr]) (length + 1) s
      else stu_loop fuel directive mark (string ++ [c]) (length + 1) (skip s)
    else .ok (string, length) s

/-- Scanner::scan_tag_uri (is_secondary is unused in the source as
well). -/
def scan_tag_uri (fuel : Nat) (directive is_secondary : Bool) (head : List Nat)
    (mark : Marker) (s : Scanner) : Res (List Nat) :=
  let length := head.length
  let string := if 1 < length then head.drop 1 else []
  rbind (stu_loop fuel directive mark string length s) fun sl s =>
    if sl.2 == 0 then
      .err ⟨mark, "while parsing a tag, did not find expected tag URI"⟩
    else .ok sl.1 s

/-- Scanner::scan_tag_directive_value. -/
def scan_tag_directive_value (fuel : Nat) (mark : Marker) (s : Scanner) : Res Token :=
  rbind (skip_blanks fuel (lookahead 1 s)) fun _ s =>
    rbind (scan_tag_handle fuel true mark s) fun handle s =>
      rbind (skip_blanks fuel (lookahead 1 s)) fun _ s =>
        let is_secondary := handle == [33, 33]
        rbind (scan_tag_uri fuel true is_secondary [] mark s) fun pfx s =>
          let s := lookahead 1 s
          if is_blankz (ch s) then .ok ⟨mark, .TagDirective handle pfx⟩ s
          else
            .err ⟨mark, "while scanning TAG, did not find expected whitespace or line break"⟩

/-- Scanner::scan_directive ("YAML" is the code points 89 65 77 76 and
"TAG" is 84 65 71). -/
def scan_directive (fuel : Nat) (s : Scanner) : Res Token :=
  let start_mark := s.mark
  let s := skip s
  rbind (scan_directive_name fuel s) fun name s =>
    rbind (if name == [89, 65, 77, 76] then scan_version_directive_value fuel start_mark s
           else if name == [84, 65, 71] then scan_tag_directive_value fuel start_mark s
           else
             rbind (skip_while_not_breakz fuel (lookahead 1 s)) fun _ s =>
               .ok (⟨start_mark, .TagDirective [] []⟩ : Token) s) fun tok s =>
      rbind (skip_blanks fuel (lookahead 1 s)) fun _ s =>
        rbind ((if ch s == 35 then skip_while_not_breakz fuel s else .ok () s)) fun _ s =>
          if !is_breakz (ch s) then
            .err ⟨start_mark,
              "while scanning a directive, did not find expected comment or line break"⟩
          else
            let s := if is_break (ch s) then skip_line (lookahead 2 s) else s
            .ok tok s

/-- Scanner::fetch_directive. -/
def fetch_directive (fuel : Nat) (s : Scanner) : Res Unit :=
  let s := unroll_indent (-1) s
  rbind (remove_simple_key s) fun _ s =>
    let s := disallow_simple_key s
    rbind (scan_directive fuel s) fun tok s => .ok () { s with tokens := s.tokens ++ [tok] }

/-! ## Anchors, aliases, tags -/

/-- The name loop of Scanner::scan_anchor. -/
def sa_loop : Nat → List Nat → Scanner → Res (List Nat)
  | 0, _, _ => .fuelOut
  | fuel + 1, acc, s =>
    if is_alpha (ch s) || ch_is s 58 then sa_loop fuel (acc ++ [ch s]) (lookahead 1 (skip s))
    else .ok acc s

/-- Scanner::scan_anchor. -/
def scan_anchor (fuel : Nat) (is_alias : Bool) (s : Scanner) : Res Token :=
  let start_mark := s.mark
  let s := lookahead 1 (skip s)
  rbind (sa_loop fuel [] s) fun string s =>
    let c := ch s
    let terminator : Bool :=
      c == 63 || c == 44 || c == 93 || c == 125 || c == 37 || c == 64 || c == 96
    if string.isEmpty || (!is_blankz c && !terminator) then
      .err ⟨start_mark,
        "while scanning an anchor or alias, did not find expected alphabetic or numeric character"⟩
    else if is_alias then .ok ⟨start_mark, .Alias string⟩ s
    else .ok ⟨start_mark, .Anchor string⟩ s

/-- Scanner::fetch_anchor. -/
def fetch_anchor (fuel : Nat) (is_alias : Bool) (s : Scanner) : Res Unit :=
  rbind (save_simple_key s) fun _ s =>
    let s := disallow_simple_key s
    rbind (scan_anchor fuel is_alias s) fun tok s => .ok () { s with tokens := s.tokens ++ [tok] }

/-- Scanner::scan_tag. -/
def scan_tag (fuel : Nat) (s : Scanner) : Res Token :=
  let start_mark := s.mark
  let s := lookahead 2 s
  rbind ((if buf s 1 == 60 then
           let s := skip (skip s)
           rbind (scan_tag_uri fuel false false [] start_mark s) fun sfx s =>
             if ch s != 62 then
               .err ⟨start_mark, "while scanning a tag, did not find the expected '>'"⟩
             else .ok (([] : List Nat), sfx) (skip s)
         else
           rbind (scan_tag_handle fuel false start_mark s) fun handle s =>
             if 2 ≤ handle.length && handle.headD 0 == 33 && handle.getLastD 0 == 33 then
               let is_secondary_handle := handle == [33, 33]
               rbind (scan_tag_uri fuel false is_secondary_handle [] start_mark s) fun sfx s => .ok (handle, sfx) s
             else
               rbind (scan_tag_uri fuel false false handle start_mark s) fun sfx s =>
                 if sfx.isEmpty then .ok (([] : List Nat), [33]) s
                 else .ok ([33], sfx) s) : Res (List Nat × List Nat)) fun hs s =>
    let s := lookahead 1 s
    if is_blankz (ch s) then .ok ⟨start_mark, .Tag hs.1 hs.2⟩ s
    else
      .err ⟨start_mark, "while scanning a tag, did not find expected whitespace or line break"⟩

/-- Scanner::fetch_tag. -/
def fetch_tag (fuel : Nat) (s : Scanner) : Res Unit :=
  rbind (save_simple_key s) fun _ s =>
    let s := disallow_simple_key s
    rbind (scan_tag fuel s) fun tok s => .ok () { s with tokens := s.tokens ++ [tok] }

/-! ## Block scalars -/

/-- The chomping and indentation indicator header of
Scanner::scan_block_scalar (lines after the initial skip and
lookahead): returns the chomping (-1, 0 or 1) and the increment
(0 when absent), or the indicator-equal-to-0 error. -/
def bs_header (start_mark : Marker) (s : Scanner) : Res (Int × Nat) :=
  if ch s == 43 || ch s == 45 then
    let chomping : Int := if ch s == 43 then 1 else -1
    let s := lookahead 1 (skip s)
    if is_digit (ch s) then
      if ch s == 48 then
        .err ⟨start_mark,
          "while scanning a block scalar, found an indentation indicator equal to 0"⟩
      else .ok (chomping, ch s - 48) (skip s)
    else .ok (chomping, 0) s
  else if is_digit (ch s) then
    if ch s == 48 then
      .err ⟨start_mark,
        "while scanning a block scalar, found an indentation indicator equal to 0"⟩
    else
      let increment := ch s - 48
      let s := lookahead 1 (skip s)
      if ch s == 43 || ch s == 45 then
        let chomping : Int := if ch s == 43 then 1 else -1
        .ok (chomping, increment) (skip s)
      else .ok ((0 : Int), increment) s
  else .ok ((0 : Int), 0) s

/-- The explicit-increment indent computation of
Scanner::scan_block_scalar: with a positive increment the content
indent is the enclosing indent plus the increment if the enclosing
indent is non-negative, else the increment alone; 0 means
"determine from the first content line". -/
def bs_indent_from (self_indent : Int) (increment : Nat) : Nat :=
  if 0 < increment then
    (if 0 ≤ self_indent then (self_indent + increment).toNat else increment)
  else 0

/-- The space loop of Scanner::skip_block_scalar_indent. -/
def sbsi_spaces : Nat → Nat → Scanner → Res Unit
  | 0, _, _ => .fuelOut
  | fuel + 1, indent, s =>
    let s := lookahead 1 s
    if s.mark.col < indent && ch s == 32 then sbsi_spaces fuel indent (skip s)
    else .ok () s

/-- Scanner::skip_block_scalar_indent. -/
def skip_block_scalar_indent : Nat → Nat → List Nat → Scanner → Res (List Nat)
  | 0, _, _, _ => .fuelOut
  | fuel + 1, indent, breaks, s =>
    rbind (sbsi_spaces fuel indent s) fun _ s =>
      let s := lookahead 1 s
      if is_break (ch s) then
        let s := lookahead 2 s
        let p := read_break breaks s
        skip_block_scalar_indent fuel indent p.1 p.2
      else .ok breaks s

/-- The space loop of Scanner::skip_block_scalar_first_line_indent. -/
def sbsfli_spaces : Nat → Scanner → Res Unit
  | 0, _ => .fuelOut
  | fuel + 1, s =>
    let s := lookahead 1 s
    if ch s == 32 then sbsfli_spaces fuel (skip s)
    else .ok () s

/-- Scanner::skip_block_scalar_first_line_indent: skips
whitespace-only lines and returns the largest whitespace-line column
seen, together with the accumulated breaks. -/
def skip_block_scalar_first_line_indent : Nat → Nat → List Nat → Scanner → Res (Nat × List Nat)
  | 0, _, _, _ => .fuelOut
  | fuel + 1, max_indent, breaks, s =>
    rbind (sbsfli_spaces fuel s) fun _ s =>
      let max_indent := if max_indent < s.mark.col then s.mark.col else max_indent
      let s := lookahead 1 s
      if is_break (ch s) then
        let s := lookahead 2 s
        let p := read_break breaks s
        skip_block_scalar_first_line_indent fuel max_indent p.1 p.2
      else .ok (max_indent, breaks) s

/-- The content-line loop of Scanner::scan_block_scalar: while the
buffered character is not a break or NUL, push it and skip. -/
def bs_inner : Nat → List Nat → Scanner → Res (List Nat)
  | 0, _, _ => .fuelOut
  | fuel + 1, string, s =>
    if !is_breakz (ch s) then bs_inner fuel (string ++ [ch s]) (lookahead 1 (skip s))
    else .ok string s

/-- The main line loop of Scanner::scan_block_scalar, carrying the
string, leading_break, trailing_breaks and leading_blank state. -/
def bs_loop : Nat → Bool → Nat → List Nat → List Nat → List Nat → Bool → Scanner →
    Res (List Nat × List Nat × List Nat)
  | 0, _, _, _, _, _, _, _ => .fuelOut
  | fuel + 1, literal, indent, string, leading_break, trailing_breaks, leading_blank, s =>
    if s.mark.col == indent && !is_z (ch s) then
      let trailing_blank := is_blank (ch s)
      let string :=
        if !literal && !leading_break.isEmpty && !leading_blank && !trailing_blank then
          (if trailing_breaks.isEmpty then string ++ [32] else string)
        else string ++ leading_break
      let leading_break : List Nat := []
      let string := string ++ trailing_breaks
      let trailing_breaks : List Nat := []
      let leading_blank := is_blank (ch s)
      rbind (bs_inner fuel string s) fun string s =>
        if is_z (ch s) then .ok (string, leading_break, trailing_breaks) s
        else
          let s := lookahead 2 s
          let p := read_break leading_break s
          let leading_break := p.1
          rbind (skip_block_scalar_indent fuel indent trailing_breaks p.2) fun trailing_breaks s =>
            bs_loop fuel literal indent string leading_break trailing_breaks leading_blank s
    else .ok (string, leading_break, trailing_breaks) s

/-- Scanner::scan_block_scalar. -/
def scan_block_scalar (fuel : Nat) (literal : Bool) (s : Scanner) : Res Token :=
  let start_mark := s.mark
  let s := lookahead 1 (skip s)
  rbind (bs_header start_mark s) fun ci s =>
    let chomping := ci.1
    let increment := ci.2
    rbind (skip_blanks_look fuel s) fun _ s =>
      rbind ((if ch s == 35 then skip_to_breakz_look fuel s else .ok () s)) fun _ s =>
        if !is_breakz (ch s) then
          .err ⟨start_mark,
            "while scanning a block scalar, did not find expected comment or line break"⟩
        else
          let s := if is_break (ch s) then skip_line (lookahead 2 s) else s
          let s := lookahead 1 s
          if ch s == 9 then
            .err ⟨start_mark, "a block scalar content cannot start with a tab"⟩
          else
            let indent0 := bs_indent_from s.indent increment
            rbind ((if indent0 == 0 then
                     rbind (skip_block_scalar_first_line_indent fuel 0 [] s) fun mi s =>
                       let indent := max (max mi.1 (s.indent + 1).toNat) 1
                       .ok (indent, mi.2) s
                    else
                     rbind (skip_block_scalar_indent fuel indent0 [] s) fun breaks s =>
                       .ok (indent0, breaks) s) : Res (Nat × List Nat)) fun ib s =>
              let s := lookahead 1 s
              let start_mark := s.mark
              rbind (bs_loop fuel literal ib.1 [] [] ib.2 false s) fun r s =>
                let string := r.1
                let leading_break := r.2.1
                let trailing_breaks := r.2.2
                let string := if chomping != -1 then string ++ leading_break else string
                let string := if chomping == 1 then string ++ trailing_breaks else string
                if literal then .ok ⟨start_mark, .Scalar .Literal string⟩ s
                else .ok ⟨start_mark, .Scalar .Foled string⟩ s

/-- Scanner::fetch_block_scalar. -/
def fetch_block_scalar (fuel : Nat) (literal : Bool) (s : Scanner) : Res Unit :=
  rbind (save_simple_key s) fun _ s =>
    let s := allow_simple_key s
    rbind (scan_block_scalar fuel literal s) fun tok s => .ok () { s with tokens := s.tokens ++ [tok] }

/-! ## Flow (quoted) scalars -/

/-- The fixed single-character escapes of the double-quoted scalar
escape table in Scanner::scan_flow_scalar: 0 a b t TAB n v f r e
space quote apostrophe backslash N underscore L P mapped to their code
points. -/
def esc_simple : Nat → Option Nat
  | 48 => some 0
  | 97 => some 7
  | 98 => some 8
  | 116 => some 9
  | 9 => some 9
  | 110 => some 10
  | 118 => some 11
  | 102 => some 12
  | 114 => some 13
  | 101 => some 27
  | 32 => some 32
  | 34 => some 34
  | 39 => some 39
  | 92 => some 92
  | 78 => some 133
  | 95 => some 160
  | 76 => some 8232
  | 80 => some 8233
  | _ => none

/-- Whether the first n buffered characters are all hexadecimal (the
digit check of the x, u, U escapes). -/
def hex_digits_ok (s : Scanner) (n : Nat) : Bool :=
  (List.range n).all fun i => is_hex (buf s i)

/-- The accumulated value of the first n buffered hex digits. -/
def hex_value (s : Scanner) (n : Nat) : Nat :=
  (List.range n).foldl (fun v i => v * 16 + as_hex (buf s i)) 0

/-- The hex escape arm (backslash x, u or U) of
Scanner::scan_flow_scalar: consume the two marker characters, read
code_length hex digits, and return the decoded code point after
consuming the digits.  Non-hex digits and values rejected by
char::from_u32 (beyond 0x10FFFF or surrogates) are errors. -/
def sfs_hex_escape (start_mark : Marker) (code_length : Nat) (s : Scanner) : Res Nat :=
  let s := lookahead code_length (skip (skip s))
  if !hex_digits_ok s code_length then
    .err ⟨start_mark,
      "while parsing a quoted scalar, did not find expected hexadecimal number"⟩
  else
    match char_from_u32 (hex_value s code_length) with
    | none =>
      .err ⟨start_mark,
        "while parsing a quoted scalar, found invalid Unicode character escape code"⟩
    | some c2 => .ok c2 (skipN code_length s)

/-- The non-blank inner loop of Scanner::scan_flow_scalar.  The
returned Bool is leading_blanks, set only by an escaped line break;
on a closing quote the loop stops with the quote still buffered. -/
def sfs_inner : Nat → Bool → Marker → List Nat → Scanner → Res (List Nat × Bool)
  | 0, _, _, _, _ => .fuelOut
  | fuel + 1, single, start_mark, string, s =>
    if !is_blankz (ch s) then
      let c := ch s
      if c == 39 && buf s 1 == 39 && single then
        sfs_inner fuel single start_mark (string ++ [39]) (lookahead 2 (skip (skip s)))
      else if c == 39 && single then .ok (string, false) s
      else if c == 34 && !single then .ok (string, false) s
      else if c == 92 && !single && is_break (buf s 1) then
        let s := lookahead 3 s
        let s := skip s
        let s := skip_line s
        .ok (string, true) s
      else if c == 92 && !single then
        match esc_simple (buf s 1) with
        | some v =>
          sfs_inner fuel single start_mark (string ++ [v]) (lookahead 2 (skip (skip s)))
        | none =>
          let code_length : Nat :=
            if buf s 1 == 120 then 2
            else if buf s 1 == 117 then 4
            else if buf s 1 == 85 then 8
            else 0
          if code_length == 0 then
            .err ⟨start_mark, "while parsing a quoted scalar, found unknown escape character"⟩
          else
            rbind (sfs_hex_escape start_mark code_length s) fun c2 s =>
              sfs_inner fuel single start_mark (string ++ [c2]) (lookahead 2 s)
      else sfs_inner fuel single start_mark (string ++ [c]) (lookahead 2 (skip s))
    else .ok (string, false) s

/-- The blank-consuming loop of Scanner::scan_flow_scalar, carrying
leading_blanks, whitespaces, leading_break and trailing_breaks. -/
def sfs_blanks : Nat → Bool → List Nat → List Nat → List Nat → Scanner →
    Res (Bool × List Nat × List Nat × List Nat)
  | 0, _, _, _, _, _ => .fuelOut
  | fuel + 1, leading_blanks, whitespaces, leading_break, trailing_breaks, s =>
    if is_blank (ch s) || is_break (ch s) then
      if is_blank (ch s) then
        if leading_blanks then
          sfs_blanks fuel leading_blanks whitespaces leading_break trailing_breaks
            (lookahead 1 (skip s))
        else
          sfs_blanks fuel leading_blanks (whitespaces ++ [ch s]) leading_break trailing_breaks
            (lookahead 1 (skip s))
      else
        let s := lookahead 2 s
        if leading_blanks then
          let p := read_break trailing_breaks s
          sfs_blanks fuel leading_blanks whitespaces leading_break p.1 (lookahead 1 p.2)
        else
          let p := read_break leading_break s
          sfs_blanks fuel true [] p.1 trailing_breaks (lookahead 1 p.2)
    else .ok (leading_blanks, whitespaces, leading_break, trailing_breaks) s

/-- The whitespace-joining and break-folding step at the bottom of the
Scanner::scan_flow_scalar loop: returns the updated string,
leading_break, trailing_breaks and whitespaces. -/
def sfs_join (string leading_break trailing_breaks whitespaces : List Nat)
    (leading_blanks : Bool) : List Nat × List Nat × List Nat × List Nat :=
  if leading_blanks then
    if leading_break.isEmpty then
      (string ++ leading_break ++ trailing_breaks, [], [], whitespaces)
    else
      if trailing_breaks.isEmpty then (string ++ [32], [], [], whitespaces)
      else (string ++ trailing_breaks, [], [], whitespaces)
  else (string ++ whitespaces, leading_break, trailing_breaks, [])

/-- The outer loop of Scanner::scan_flow_scalar. -/
def sfs_loop : Nat → Bool → Marker → List Nat → List Nat → List Nat → List Nat → Scanner →
    Res (List Nat)
  | 0, _, _, _, _, _, _, _ => .fuelOut
  | fuel + 1, single, start_mark, string, leading_break, trailing_breaks, whitespaces, s =>
    let s := lookahead 4 s
    if s.mark.col == 0 &&
       ((buf s 0 == 45 && buf s 1 == 45 && buf s 2 == 45) ||
        (buf s 0 == 46 && buf s 1 == 46 && buf s 2 == 46)) &&
       is_blankz (buf s 3) then
      .err ⟨start_mark, "while scanning a quoted scalar, found unexpected document indicator"⟩
    else if is_z (ch s) then
      .err ⟨start_mark, "while scanning a quoted scalar, found unexpected end of stream"⟩
    else
      let s := lookahead 2 s
      rbind (sfs_inner fuel single start_mark string s) fun sb s =>
        let string := sb.1
        let leading_blanks := sb.2
        let s := lookahead 1 s
        if (ch s == 39 && single) || (ch s == 34 && !single) then .ok string s
        else
          rbind (sfs_blanks fuel leading_blanks whitespaces leading_break trailing_breaks s) fun q s =>
            let j := sfs_join string q.2.2.1 q.2.2.2 q.2.1 q.1
            sfs_loop fuel single start_mark j.1 j.2.1 j.2.2.1 j.2.2.2 s

/-- Scanner::scan_flow_scalar. -/
def scan_flow_scalar (fuel : Nat) (single : Bool) (s : Scanner) : Res Token :=
  let start_mark := s.mark
  let s := skip s
  rbind (sfs_loop fuel single start_mark [] [] [] [] s) fun string s =>
    let s := skip s
    if single then .ok ⟨start_mark, .Scalar .SingleQuoted string⟩ s
    else .ok ⟨start_mark, .Scalar .DoubleQuoted string⟩ s

/-- Scanner::fetch_flow_scalar. -/
def fetch_flow_scalar (fuel : Nat) (single : Bool) (s : Scanner) : Res Unit :=
  rbind (save_simple_key s) fun _ s =>
    let s := disallow_simple_key s
    rbind (scan_flow_scalar fuel single s) fun tok s =>
      let s := { s with adjacent_value_allowed_at := s.mark.index }
      .ok () { s with tokens := s.tokens ++ [tok] }

/-! ## Plain scalars -/

/-- The non-blank inner loop of Scanner::scan_plain_scalar, together
with its pending-whitespace join. -/
def sps_inner : Nat → List Nat → List Nat → List Nat → List Nat → Bool → Scanner →
    Res (List Nat × List Nat × List Nat × List Nat × Bool)
  | 0, _, _, _, _, _, _ => .fuelOut
  | fuel + 1, string, leading_break, trailing_breaks, whitespaces, leading_blanks, s =>
    if !is_blankz (ch s) then
      if ch s == 58 && (is_blankz (buf s 1) || (0 < s.flow_level && is_flow (buf s 1))) then
        .ok (string, leading_break, trailing_breaks, whitespaces, leading_blanks) s
      else if (ch s == 44 || ch s == 91 || ch s == 93 || ch s == 123 || ch s == 125)
              && 0 < s.flow_level then
        .ok (string, leading_break, trailing_breaks, whitespaces, leading_blanks) s
      else
        let acc :=
          if leading_blanks || !whitespaces.isEmpty then
            if leading_blanks then
              if leading_break.isEmpty then
                (string ++ leading_break ++ trailing_breaks, ([] : List Nat), ([] : List Nat),
                 whitespaces, false)
              else if trailing_breaks.isEmpty then
                (string ++ [32], [], [], whitespaces, false)
              else (string ++ trailing_breaks, [], [], whitespaces, false)
            else (string ++ whitespaces, leading_break, trailing_breaks, [], leading_blanks)
          else (string, leading_break, trailing_breaks, whitespaces, leading_blanks)
        sps_inner fuel (acc.1 ++ [ch s]) acc.2.1 acc.2.2.1 acc.2.2.2.1 acc.2.2.2.2
          (lookahead 2 (skip s))
    else .ok (string, leading_break, trailing_breaks, whitespaces, leading_blanks) s

/-- The blank-consuming loop of Scanner::scan_plain_scalar. -/
def sps_blanks : Nat → Marker → Int → List Nat → List Nat → List Nat → Bool → Scanner →
    Res (List Nat × List Nat × List Nat × Bool)
  | 0, _, _, _, _, _, _, _ => .fuelOut
  | fuel + 1, start_mark, indent, leading_break, trailing_breaks, whitespaces, leading_blanks, s =>
    let s := lookahead 1 s
    if is_blank (ch s) || is_break (ch s) then
      if is_blank (ch s) then
        if leading_blanks && decide ((s.mark.col : Int) < indent) && ch s == 9 then
          .err ⟨start_mark, "while scanning a plain scalar, found a tab"⟩
        else
          let whitespaces := if !leading_blanks then whitespaces ++ [ch s] else whitespaces
          sps_blanks fuel start_mark indent leading_break trailing_breaks whitespaces
            leading_blanks (skip s)
      else
        let s := lookahead 2 s
        if leading_blanks then
          let p := read_break trailing_breaks s
          sps_blanks fuel start_mark indent leading_break p.1 whitespaces leading_blanks p.2
        else
          let p := read_break leading_break s
          sps_blanks fuel start_mark indent p.1 trailing_breaks [] true p.2
    else .ok (leading_break, trailing_breaks, whitespaces, leading_blanks) s

/-- The outer loop of Scanner::scan_plain_scalar, returning the string
and the final leading_blanks flag. -/
def sps_loop : Nat → Int → Marker → List Nat → List Nat → List Nat → List Nat → Bool →
    Scanner → Res (List Nat × Bool)
  | 0, _, _, _, _, _, _, _, _ => .fuelOut
  | fuel + 1, indent, start_mark, string, leading_break, trailing_breaks, whitespaces,
      leading_blanks, s =>
    let s := lookahead 4 s
    if s.mark.col == 0 &&
       ((buf s 0 == 45 && buf s 1 == 45 && buf s 2 == 45) ||
        (buf s 0 == 46 && buf s 1 == 46 && buf s 2 == 46)) &&
       is_blankz (buf s 3) then
      .ok (string, leading_blanks) s
    else if ch s == 35 then .ok (string, leading_blanks) s
    else
      rbind (sps_inner fuel string leading_break trailing_breaks whitespaces leading_blanks s) fun acc s =>
        let string := acc.1
        let leading_break := acc.2.1
        let trailing_breaks := acc.2.2.1
        let whitespaces := acc.2.2.2.1
        let leading_blanks := acc.2.2.2.2
        if !(is_blank (ch s) || is_break (ch s)) then .ok (string, leading_blanks) s
        else
          rbind (sps_blanks fuel start_mark indent leading_break trailing_breaks whitespaces
              leading_blanks s) fun q s =>
            let leading_break := q.1
            let trailing_breaks := q.2.1
            let whitespaces := q.2.2.1
            let leading_blanks := q.2.2.2
            if s.flow_level == 0 && decide ((s.mark.col : Int) < indent) then
              .ok (string, leading_blanks) s
            else
              sps_loop fuel indent start_mark string leading_break trailing_breaks whitespaces
                leading_blanks s

/-- Scanner::scan_plain_scalar. -/
def scan_plain_scalar (fuel : Nat) (s : Scanner) : Res Token :=
  let indent := s.indent + 1
  let start_mark := s.mark
  rbind (sps_loop fuel indent start_mark [] [] [] [] true s) fun r s =>
    let s := if r.2 then allow_simple_key s else s
    .ok ⟨start_mark, .Scalar .Plain r.1⟩ s

/-- Scanner::fetch_plain_scalar. -/
def fetch_plain_scalar (fuel : Nat) (s : Scanner) : Res Unit :=
  rbind (save_simple_key s) fun _ s =>
    let s := disallow_simple_key s
    rbind (scan_plain_scalar fuel s) fun tok s => .ok () { s with tokens := s.tokens ++ [tok] }

/-! ## Driver -/

/-- The dispatch of Scanner::fetch_next_token on the character after
whitespace skipping, key aging and indent unrolling (s is the state
with four characters of lookahead). -/
def fetch_dispatch_char (fuel : Nat) (c nc : Nat) (s : Scanner) : Res Unit :=
  if c == 91 then fetch_flow_collection_start .FlowSequenceStart s
  else if c == 123 then fetch_flow_collection_start .FlowMappingStart s
  else if c == 93 then fetch_flow_collection_end .FlowSequenceEnd s
  else if c == 125 then fetch_flow_collection_end .FlowMappingEnd s
  else if c == 44 then fetch_flow_entry s
  else if c == 45 && is_blankz nc then fetch_block_entry s
  else if c == 63 && is_blankz nc then fetch_key s
  else if c == 58 &&
          (is_blankz nc ||
           (0 < s.flow_level &&
            (is_flow nc || s.mark.index == s.adjacent_value_allowed_at))) then
    fetch_value s
  else if c == 42 then fetch_anchor fuel true s
  else if c == 38 then fetch_anchor fuel false s
  else if c == 33 then fetch_tag fuel s
  else if c == 124 && s.flow_level == 0 then fetch_block_scalar fuel true s
  else if c == 62 && s.flow_level == 0 then fetch_block_scalar fuel false s
  else if c == 39 then fetch_flow_scalar fuel true s
  else if c == 34 then fetch_flow_scalar fuel false s
  else if c == 45 && !is_blankz nc then fetch_plain_scalar fuel s
  else if (c == 58 || c == 63) && !is_blankz nc && s.flow_level == 0 then
    fetch_plain_scalar fuel s
  else if c == 37 || c == 64 || c == 96 then
    .err ⟨s.mark,
      "unexpected character: `" ++ String.singleton (Char.ofNat c) ++ "'"⟩
  else fetch_plain_scalar fuel s

/-- The dispatch of Scanner::fetch_next_token on the character after
whitespace skipping, key aging and indent unrolling (s is the state
with four characters of lookahead; the two character bindings of the
source become the parameters of fetch_dispatch_char). -/
def fetch_dispatch (fuel : Nat) (s : Scanner) : Res Unit :=
  if is_z (ch s) then fetch_stream_end s
  else if s.mark.col == 0 && ch_is s 37 then fetch_directive fuel s
  else if s.mark.col == 0 && buf s 0 == 45 && buf s 1 == 45 && buf s 2 == 45
          && is_blankz (buf s 3) then
    fetch_document_indicator .DocumentStart s
  else if s.mark.col == 0 && buf s 0 == 46 && buf s 1 == 46 && buf s 2 == 46
          && is_blankz (buf s 3) then
    fetch_document_indicator .DocumentEnd s
  else fetch_dispatch_char fuel (buf s 0) (buf s 1) s

/-- Scanner::fetch_next_token.  The fuel is only threaded to the
looping helpers; the body itself is a straight-line dispatch. -/
def fetch_next_token (fuel : Nat) (s : Scanner) : Res Unit :=
  let s := lookahead 1 s
  if !s.stream_start_produced then .ok () (fetch_stream_start s)
  else
    rbind (skip_to_next_token fuel s) fun _ s =>
      rbind (stale_simple_keys s) fun _ s =>
        let mark := s.mark
        let s := unroll_indent (mark.col : Int) s
        let s := lookahead 4 s
        fetch_dispatch fuel s

/-- Scanner::fetch_more_tokens (the driver loop). -/
def fetch_more_tokens : Nat → Scanner → Res Unit
  | 0, _ => .fuelOut
  | fuel + 1, s =>
    if s.tokens.isEmpty then
      rbind (fetch_next_token fuel s) fun _ s => fetch_more_tokens fuel s
    else
      rbind (stale_simple_keys s) fun _ s =>
        if s.simple_keys.any (fun sk => sk.possible && sk.token_number == s.tokens_parsed) then
          rbind (fetch_next_token fuel s) fun _ s => fetch_more_tokens fuel s
        else .ok () { s with token_available := true }

/-- Scanner::next_token (pop_front().unwrap() on the queue that
fetch_more_tokens left non-empty; the empty case maps to fuelOut). -/
def next_token (fuel : Nat) (s : Scanner) : Res (Option Token) :=
  if s.stream_end_produced then .ok none s
  else
    rbind ((if !s.token_available then fetch_more_tokens fuel s else .ok () s)) fun _ s =>
      match s.tokens with
      | [] => .fuelOut
      | t :: rest =>
        let s := { s with tokens := rest, token_available := false,
                          tokens_parsed := s.tokens_parsed + 1 }
        let s := match t.kind with
          | .StreamEnd => { s with stream_end_produced := true }
          | _ => s
        .ok (some t) s

/-- One call of Iterator::next for Scanner: nothing after a latched
error, otherwise next_token, latching any error.  The outer none is
fuel exhaustion (on an error the partial mutations of the failing call
are dropped; the scanner is dead afterwards either way). -/
def iter_next (fuel : Nat) (s : Scanner) : Option (Option Token × Scanner) :=
  if s.error.isSome then some (none, s)
  else
    match next_token fuel s with
    | .ok t s2 => some (t, s2)
    | .err e => some (none, { s with error := some e })
    | .fuelOut => none

/-- Pull tokens through Iterator::next until it returns none,
collecting the yielded tokens and the final scanner state.  none is
fuel exhaustion. -/
def collect : Nat → Scanner → Option (List Token × Scanner)
  | 0, _ => none
  | fuel + 1, s =>
    match iter_next fuel s with
    | none => none
    | some (none, s2) => some ([], s2)
    | some (some t, s2) =>
      match collect fuel s2 with
      | none => none
      | some (ts, s3) => some (t :: ts, s3)

/-- The code points of a Lean string literal, used to spell concrete
inputs. -/
def cp (x : String) : List Nat := x.toList.map Char.toNat

/-- The kinds of a token list. -/
def kinds (ts : List Token) : List TokenType := ts.map Token.kind

/-- The staleness condition of stale_simple_keys in propositional
form: the key started on an earlier line, or strictly more than 1024
bytes behind the current position. -/
def StaleAt (mark : Marker) (sk : SimpleKey) : Prop :=
  sk.mark.line < mark.line ∨ sk.mark.index + 1024 < mark.index

instance (mark : Marker) (sk : SimpleKey) : Decidable (StaleAt mark sk) := by
  unfold StaleAt; infer_instance

/-- The value of a successful scanner step, if any. -/
def res_val {α : Type} : Res α → Option α
  | .ok a _ => some a
  | _ => none

/-- A Unicode scalar value: what a Rust char can hold.  The NUL
sentinel 0 is one. -/
def ValidC (c : Nat) : Prop := c < 1114112 ∧ ¬(55296 ≤ c ∧ c ≤ 57343)

/-- All characters of the lookahead buffer and of the remaining input
are Unicode scalar values (the Rust reader hands out chars, so this
holds of every reachable state). -/
def VS (s : Scanner) : Prop :=
  (∀ c ∈ s.buffer, ValidC c) ∧ (∀ c ∈ s.rdr, ValidC c)

instance (c : Nat) : Decidable (ValidC c) := by
  unfold ValidC
  infer_instance

instance (s : Scanner) : Decidable (VS s) := by
  unfold VS
  infer_instance

/-- The character stream a scanner state still has to hand out: its
lookahead buffer followed by the pending reader input, up to the NUL
padding that pull_chars appends past the end of input. -/
def SEq (s : Scanner) (l : List Nat) : Prop :=
  ∃ k, s.buffer ++ s.rdr = l ++ List.replicate k 0

/-!
## Theorems

Helper lemmas first (frame lemmas about single state steps and the
characterisation of the stale-key sweep), then one theorem per claim.
-/

set_option maxRecDepth 10000

@[simp] theorem rbind_ok_eval {α β : Type} (a : α) (s : Scanner) (f : α → Scanner → Res β) :
    rbind (.ok a s) f = f a s := rfl

@[simp] theorem rbind_err_eval {α β : Type} (e : ScanError) (f : α → Scanner → Res β) :
    rbind (.err e) f = (.err e : Res β) := rfl

@[simp] theorem rbind_fuelOut_eval {α β : Type} (f : α → Scanner → Res β) :
    rbind (.fuelOut : Res α) f = (.fuelOut : Res β) := rfl

/-- Inversion of a successful rbind. -/
theorem rbind_ok {α β : Type} {r : Res α} {f : α → Scanner → Res β} {b : β} {s' : Scanner}
    (h : rbind r f = .ok b s') : ∃ a sa, r = .ok a sa ∧ f a sa = .ok b s' := by
  cases r with
  | ok a sa => exact ⟨a, sa, rfl, h⟩
  | err e => cases h
  | fuelOut => cases h

/-- Inversion of an if-then-else producing a successful step. -/
theorem ite_eq_ok {α : Type} {P : Prop} [Decidable P] {A B : Res α} {a : α} {s' : Scanner}
    (h : (if P then A else B) = .ok a s') :
    (P ∧ A = .ok a s') ∨ (¬P ∧ B = .ok a s') := by
  split at h
  · exact .inl ⟨by assumption, h⟩
  · exact .inr ⟨by assumption, h⟩

theorem lookahead_of_le (count : Nat) (s : Scanner) (h : count ≤ s.buffer.length) :
    lookahead count s = s := by
  simp [lookahead, h]

theorem skip_tokens (s : Scanner) : (skip s).tokens = s.tokens := by
  simp only [skip]; split <;> rfl

theorem skip_simple_keys (s : Scanner) : (skip s).simple_keys = s.simple_keys := by
  simp only [skip]; split <;> rfl

theorem skip_flow_level (s : Scanner) : (skip s).flow_level = s.flow_level := by
  simp only [skip]; split <;> rfl

theorem skip_error (s : Scanner) : (skip s).error = s.error := by
  simp only [skip]; split <;> rfl

theorem skip_buffer (s : Scanner) : (skip s).buffer = s.buffer.tail := by
  simp only [skip]; split <;> rfl

/-- The ok behaviour of the stale-key sweep: when no possible stale
key is required, it succeeds and exactly the possible stale keys lose
their possible flag. -/
theorem stale_go_ok (mark : Marker) (l : List SimpleKey)
    (h : ∀ sk ∈ l, ¬(sk.possible = true ∧ StaleAt mark sk ∧ sk.required = true)) :
    stale_keys_go mark l = .ok (l.map fun sk =>
      if sk.possible = true ∧ StaleAt mark sk then { sk with possible := false } else sk) := by
  induction l with
  | nil => simp [stale_keys_go]
  | cons sk rest ih =>
    have hsk := h sk (by simp)
    have hrest : ∀ x ∈ rest, ¬(x.possible = true ∧ StaleAt mark x ∧ x.required = true) :=
      fun x hx => h x (by simp [hx])
    by_cases hp : sk.possible = true ∧ StaleAt mark sk
    · obtain ⟨hposs, hstale⟩ := hp
      have hreq : sk.required = false := by
        cases hr : sk.required
        · rfl
        · exact absurd ⟨hposs, hstale, hr⟩ hsk
      have hb : (decide (sk.mark.line < mark.line) ||
          decide (sk.mark.index + 1024 < mark.index)) = true := by
        rcases hstale with h2 | h2 <;> simp [h2]
      simp only [stale_keys_go, hposs, hb, hreq, Bool.true_and, Bool.false_eq_true, if_false]
      rw [ih hrest]
      simp [hposs, hstale, hreq]
    · have hb : (sk.possible && (decide (sk.mark.line < mark.line) ||
          decide (sk.mark.index + 1024 < mark.index))) = false := by
        by_cases hposs : sk.possible = true
        · have hns : ¬ StaleAt mark sk := fun hs => hp ⟨hposs, hs⟩
          simp only [StaleAt, not_or, not_lt] at hns
          simp [hposs]
          omega
        · simp only [Bool.not_eq_true] at hposs
          simp [hposs]
      simp only [stale_keys_go, hb, Bool.false_eq_true, if_false]
      rw [ih hrest]
      simp [if_neg hp]

/-- The error behaviour of the stale-key sweep: a possible stale
required key anywhere in the stack makes it fail with the message
of the source (the string is "simple key expect" followed by a
quoted colon). -/
theorem stale_go_err (mark : Marker) (l : List SimpleKey)
    (h : ∃ sk ∈ l, sk.possible = true ∧ StaleAt mark sk ∧ sk.required = true) :
    stale_keys_go mark l = .error ⟨mark, "simple key expect ':'"⟩ := by
  induction l with
  | nil => simp at h
  | cons sk rest ih =>
    rcases h with ⟨x, hx, hp⟩
    rcases List.mem_cons.mp hx with rfl | hxr
    · have hb : (decide (x.mark.line < mark.line) ||
          decide (x.mark.index + 1024 < mark.index)) = true := by
        rcases hp.2.1 with h2 | h2 <;> simp [h2]
      simp [stale_keys_go, hp.1, hb, hp.2.2]
    · simp only [stale_keys_go]
      have := ih ⟨x, hxr, hp⟩
      by_cases hc : sk.possible = true ∧
          (decide (sk.mark.line < mark.line) || decide (sk.mark.index + 1024 < mark.index)) = true
      · cases hr : sk.required
        · simp [hc.1, hc.2, hr, this]
        · simp [hc.1, hc.2, hr]
      · rcases Decidable.not_and_iff_or_not.mp hc with hc1 | hc2
        · simp only [Bool.not_eq_true] at hc1
          simp [hc1, this]
        · simp only [Bool.not_eq_true] at hc2
          by_cases hposs : sk.possible = true
          · simp [hposs, hc2, this]
          · simp only [Bool.not_eq_true] at hposs
            simp [hposs, this]

/-- C1: for the input stream a colon space 1 newline b colon space 2
newline, the scanner succeeds and the pulled tokens are exactly
StreamStart(UTF-8), BlockMappingStart, Key, Scalar(Plain, a), Value,
Scalar(Plain, 1), Key, Scalar(Plain, b), Value, Scalar(Plain, 2),
BlockEnd, StreamEnd (the Key tokens were back-inserted in front of
their already-scanned scalars), and afterwards next_token yields no
token. -/
theorem c1_two_line_mapping_token_sequence :
    (collect 300 (Scanner.new (cp "a: 1\nb: 2\n"))).map
        (fun p => (kinds p.1, p.2.error, (iter_next 50 p.2).map Prod.fst)) =
      some ([.StreamStart .Utf8, .BlockMappingStart, .Key, .Scalar .Plain (cp "a"), .Value,
             .Scalar .Plain (cp "1"), .Key, .Scalar .Plain (cp "b"), .Value,
             .Scalar .Plain (cp "2"), .BlockEnd, .StreamEnd], none, some none) := by
  decide

/-- C3 (evaluation at the failing input): on the input a colon space 1
newline, the scanner succeeds and the byte indices of the handed-out
markers are 0, 1, 0, 0, 1, 3, 5, 5, which is not monotonic
non-decreasing: fetch_value inserts the BlockMappingStart token with
the marker of the colon (start_mark, index 1) at a queue position in
front of the Key token carrying the simple key marker (index 0). -/
theorem c3_marker_monotonicity_fails :
    (collect 300 (Scanner.new (cp "a: 1\n"))).map
        (fun p => (p.1.map (fun t => t.mark.index), p.2.error)) =
      some ([0, 1, 0, 0, 1, 3, 5, 5], none) ∧
    ¬ List.Chain' (· ≤ ·) [0, 1, 0, 0, 1, 3, 5, 5] := by
  refine ⟨by decide, ?_⟩
  simp [List.chain'_cons]

/-- C4 (counterexample): on the input tab dash space x the scanner
reports no error at all (so in particular not the tab error the claim
expects): the tab guard of skip_to_next_token requires is_within_block,
which is false while the indents stack is empty. -/
theorem c4_counterexample :
    (collect 300 (Scanner.new (cp "\t- x"))).map (fun p => p.2.error) = some none := by
  decide

/-- C4 (amended): on the input tab dash space x the scanner succeeds,
skipping the tab as leading whitespace outside any open block
container, and produces the block-sequence stream StreamStart,
BlockSequenceStart, BlockEntry, Scalar(Plain, x), BlockEnd,
StreamEnd. -/
theorem c4_tab_block_entry_accepted :
    (collect 300 (Scanner.new (cp "\t- x"))).map (fun p => (kinds p.1, p.2.error)) =
      some ([.StreamStart .Utf8, .BlockSequenceStart, .BlockEntry, .Scalar .Plain (cp "x"),
             .BlockEnd, .StreamEnd], none) := by
  decide

/-- C5 (counterexample): a possible simple key whose start lies
exactly 1024 bytes before the current position on the same line is
NOT invalidated by stale_simple_keys (the code requires strictly more
than 1024 bytes), contradicting the claim that a candidate at least
1024 bytes behind is invalidated. -/
theorem c5_counterexample :
    stale_simple_keys { Scanner.new [] with
        mark := ⟨1024, 1, 1024⟩
        simple_keys := [⟨true, false, 1, ⟨0, 1, 0⟩⟩] } =
      .ok () { Scanner.new [] with
        mark := ⟨1024, 1, 1024⟩
        simple_keys := [⟨true, false, 1, ⟨0, 1, 0⟩⟩] } := by
  decide

/-- C5 (amended): stale_simple_keys invalidates exactly the possible
candidates that are on an earlier line or strictly more than 1024
bytes behind the current position, and if any such candidate is
required it fails with the error whose message is "simple key expect"
followed by a quoted colon (not "simple key expected", which is the
message of remove_simple_key). -/
theorem c5_stale_simple_keys_amended (s : Scanner) :
    ((∀ sk ∈ s.simple_keys, ¬(sk.possible = true ∧ StaleAt s.mark sk ∧ sk.required = true)) →
      stale_simple_keys s = .ok () { s with simple_keys := s.simple_keys.map fun sk =>
        (if sk.possible = true ∧ StaleAt s.mark sk then { sk with possible := false }
         else sk) }) ∧
    ((∃ sk ∈ s.simple_keys, sk.possible = true ∧ StaleAt s.mark sk ∧ sk.required = true) →
      stale_simple_keys s = .err ⟨s.mark, "simple key expect ':'"⟩) := by
  constructor
  · intro h
    simp [stale_simple_keys, stale_go_ok s.mark s.simple_keys h]
  · intro h
    simp [stale_simple_keys, stale_go_err s.mark s.simple_keys h]

/-- C5 (witness): the amended theorem evaluated at two concrete
states: one with a non-required key 1025 bytes behind, which is
invalidated, and one with a required key on an earlier line, which
raises the stale-key error. -/
theorem c5_witness :
    stale_simple_keys { Scanner.new [] with
        mark := ⟨1025, 1, 1025⟩
        simple_keys := [⟨true, false, 1, ⟨0, 1, 0⟩⟩] } =
      .ok () { Scanner.new [] with
        mark := ⟨1025, 1, 1025⟩
        simple_keys := [⟨false, false, 1, ⟨0, 1, 0⟩⟩] } ∧
    stale_simple_keys { Scanner.new [] with
        mark := ⟨8, 2, 0⟩
        simple_keys := [⟨true, true, 1, ⟨0, 1, 0⟩⟩] } =
      .err ⟨⟨8, 2, 0⟩, "simple key expect ':'"⟩ := by
  constructor
  · have h := (c5_stale_simple_keys_amended { Scanner.new [] with
        mark := ⟨1025, 1, 1025⟩
        simple_keys := [⟨true, false, 1, ⟨0, 1, 0⟩⟩] }).1 (by decide)
    rw [h]
    decide
  · exact (c5_stale_simple_keys_amended { Scanner.new [] with
        mark := ⟨8, 2, 0⟩
        simple_keys := [⟨true, true, 1, ⟨0, 1, 0⟩⟩] }).2
      ⟨⟨true, true, 1, ⟨0, 1, 0⟩⟩, by decide, by decide, by decide, by decide⟩

/-- C7: in scan_block_scalar, an explicit indentation indicator digit
0 directly after the style indicator, or after a chomping indicator,
is the indicator-equal-to-0 error; a digit 1 to 9 is parsed by the
header as the increment digit minus 48, and the content indent
derived from a positive increment is the enclosing indent plus the
increment, or the increment itself when the enclosing indent is the
-1 sentinel. -/
theorem c7_block_scalar_header_indicator :
    (∀ fuel literal (s : Scanner) c0 rest, s.buffer = c0 :: 48 :: rest →
        scan_block_scalar fuel literal s = .err ⟨s.mark,
          "while scanning a block scalar, found an indentation indicator equal to 0"⟩) ∧
    (∀ fuel literal (s : Scanner) c0 c1 rest, (c1 = 43 ∨ c1 = 45) →
        s.buffer = c0 :: c1 :: 48 :: rest →
        scan_block_scalar fuel literal s = .err ⟨s.mark,
          "while scanning a block scalar, found an indentation indicator equal to 0"⟩) ∧
    (∀ (s : Scanner) c0 d rest, 49 ≤ d → d ≤ 57 → s.buffer = c0 :: d :: rest →
        -1 ≤ s.indent →
        Option.map Prod.snd (res_val (bs_header s.mark (lookahead 1 (skip s)))) =
            some (d - 48) ∧
          (bs_indent_from s.indent (d - 48) : Int) =
            (if s.indent = -1 then (d : Int) - 48 else s.indent + ((d : Int) - 48))) := by
  refine ⟨?_, ?_, ?_⟩
  · intro fuel literal s c0 rest hb
    have h1 : (skip s).buffer = 48 :: rest := by rw [skip_buffer, hb]; rfl
    simp only [scan_block_scalar]
    rw [lookahead_of_le 1 (skip s) (by simp [h1])]
    simp [bs_header, ch, h1, is_digit]
  · intro fuel literal s c0 c1 rest h1 hb
    have hb1 : (skip s).buffer = c1 :: 48 :: rest := by rw [skip_buffer, hb]; rfl
    have hb2 : (skip (skip s)).buffer = 48 :: rest := by rw [skip_buffer, hb1]; rfl
    simp only [scan_block_scalar]
    rw [lookahead_of_le 1 (skip s) (by simp [hb1])]
    rcases h1 with rfl | rfl <;>
    · simp only [bs_header, ch, hb1, List.headD_cons]
      rw [lookahead_of_le 1 (skip (skip s)) (by simp [hb2])]
      simp [ch, hb2, is_digit]
  · intro s c0 d rest h49 h57 hb hind
    constructor
    · have hb1 : (skip s).buffer = d :: rest := by rw [skip_buffer, hb]; rfl
      rw [lookahead_of_le 1 (skip s) (by simp [hb1])]
      have hd1 : (d == 43) = false := by simp; omega
      have hd2 : (d == 45) = false := by simp; omega
      have hd3 : (d == 48) = false := by simp; omega
      have hdig : is_digit d = true := by simp [is_digit]; omega
      simp only [bs_header, ch, hb1, List.headD_cons, hd1, hd2, hd3, hdig, Bool.or_self,
        Bool.false_eq_true, if_false, if_true]
      split <;> rfl
    · have hpos : 0 < d - 48 := by omega
      unfold bs_indent_from
      rw [if_pos hpos]
      by_cases hneg : s.indent = -1
      · rw [if_neg (by omega), if_pos hneg]
        omega
      · rw [if_pos (by omega), if_neg hneg]
        omega

/-- C7 (witness): the header theorem evaluated on concrete states:
a 0 indicator after the bar, a 0 indicator after a chomping plus, and
the digit 2 with enclosing indents -1 and 3. -/
theorem c7_witness :
    scan_block_scalar 50 true { Scanner.new [] with buffer := [124, 48, 10, 0] } =
      .err ⟨⟨0, 1, 0⟩,
        "while scanning a block scalar, found an indentation indicator equal to 0"⟩ ∧
    scan_block_scalar 50 true { Scanner.new [] with buffer := [124, 43, 48, 10] } =
      .err ⟨⟨0, 1, 0⟩,
        "while scanning a block scalar, found an indentation indicator equal to 0"⟩ ∧
    (bs_indent_from (-1) (50 - 48) : Int) = (50 : Int) - 48 ∧
    (bs_indent_from 3 (50 - 48) : Int) = 3 + ((50 : Int) - 48) := by
  refine ⟨c7_block_scalar_header_indicator.1 50 true _ 124 [10, 0] rfl,
          c7_block_scalar_header_indicator.2.1 50 true _ 124 43 [10] (Or.inl rfl) rfl, ?_, ?_⟩
  · have h := (c7_block_scalar_header_indicator.2.2 { Scanner.new [] with
        buffer := [124, 50, 10, 0], indent := -1 } 124 50 [10, 0]
        (by decide) (by decide) rfl (by decide)).2
    simpa using h
  · have h := (c7_block_scalar_header_indicator.2.2 { Scanner.new [] with
        buffer := [124, 50, 10, 0], indent := 3 } 124 50 [10, 0]
        (by decide) (by decide) rfl (by decide)).2
    simpa using h

/-- C9 (counterexample): a closing bracket handled at flow level 0
does not leave the simple-key stack unchanged: remove_simple_key
clears the possible flag of the retained top candidate (state as
reached after the input a space bracket). -/
theorem c9_counterexample :
    ∃ s', fetch_flow_collection_end .FlowSequenceEnd
        { Scanner.new [] with
          mark := ⟨2, 1, 2⟩
          buffer := [93]
          simple_keys := [⟨true, false, 1, ⟨0, 1, 0⟩⟩] } = .ok () s' ∧
      s'.simple_keys ≠ [⟨true, false, 1, ⟨0, 1, 0⟩⟩] :=
  ⟨_, rfl, by decide⟩

/-- C9 (amended): a closing bracket or brace at flow level 0 whose
retained top simple key is not both possible and required is not an
error: the FlowSequenceEnd or FlowMappingEnd token is emitted anyway
and the flow level stays 0 (decreasing it is a no-op at level 0), the
stack keeps its length, but the top candidate has its possible flag
cleared by remove_simple_key. -/
theorem c9_flow_end_at_level_zero (tok : TokenType) (s : Scanner) (sk0 : SimpleKey)
    (rest : List SimpleKey) (hf : s.flow_level = 0) (hsk : s.simple_keys = sk0 :: rest)
    (hreq : (sk0.possible && sk0.required) = false) :
    ∃ s', fetch_flow_collection_end tok s = .ok () s' ∧
      s'.flow_level = 0 ∧
      s'.simple_keys = { sk0 with possible := false } :: rest ∧
      s'.tokens = s.tokens ++ [⟨s.mark, tok⟩] ∧
      s'.error = s.error := by
  have hstep : fetch_flow_collection_end tok s =
      .ok () { skip { s with
                 simple_keys := { sk0 with possible := false } :: rest
                 simple_key_allowed := false } with
               tokens := (skip { s with
                 simple_keys := { sk0 with possible := false } :: rest
                 simple_key_allowed := false }).tokens ++ [⟨s.mark, tok⟩] } := by
    simp only [fetch_flow_collection_end, remove_simple_key, hsk, hreq, Bool.false_eq_true,
      if_false, decrease_flow_level, disallow_simple_key, hf, rbind_ok_eval]
    simp
  refine ⟨_, hstep, ?_, ?_, ?_, ?_⟩ <;>
    simp [skip_tokens, skip_simple_keys, skip_flow_level, skip_error, hf]

/-- C9 (witness): the amended theorem evaluated at the concrete state
reached after the input a space bracket: the token is emitted, the
level stays 0 and the stack keeps one entry with possible cleared. -/
theorem c9_witness :
    ∃ s', fetch_flow_collection_end .FlowSequenceEnd
        { Scanner.new [] with
          mark := ⟨2, 1, 2⟩
          buffer := [93]
          simple_keys := [⟨true, false, 1, ⟨0, 1, 0⟩⟩] } = .ok () s' ∧
      s'.flow_level = 0 ∧
      s'.simple_keys = [⟨false, false, 1, ⟨0, 1, 0⟩⟩] ∧
      s'.tokens = [⟨⟨2, 1, 2⟩, .FlowSequenceEnd⟩] ∧
      s'.error = none := by
  obtain ⟨s', h1, h2, h3, h4, h5⟩ := c9_flow_end_at_level_zero .FlowSequenceEnd
    { Scanner.new [] with
      mark := ⟨2, 1, 2⟩
      buffer := [93]
      simple_keys := [⟨true, false, 1, ⟨0, 1, 0⟩⟩] }
    ⟨true, false, 1, ⟨0, 1, 0⟩⟩ [] rfl rfl rfl
  exact ⟨s', h1, h2, by simpa using h3, by simpa using h4, by simpa using h5⟩

/-- C10: skip consumes exactly one character and advances the byte
index by one; for any character other than LF (code 10, so in
particular for a lone CR, code 13) the line is unchanged and the
column increments by one, and only for LF the line increments and the
column resets to 0. -/
theorem c10_skip_lone_cr_keeps_line (s : Scanner) (c : Nat) (rest : List Nat)
    (h : s.buffer = c :: rest) :
    (skip s).mark = if c = 10
      then ⟨s.mark.index + 1, s.mark.line + 1, 0⟩
      else ⟨s.mark.index + 1, s.mark.line, s.mark.col + 1⟩ := by
  simp only [skip, h]
  by_cases hc : c = 10 <;> simp [hc]

/-- C10 (witness): consuming a lone CR (code 13) advances the column
and not the line; consuming an LF advances the line and resets the
column. -/
theorem c10_witness :
    (skip { Scanner.new [] with buffer := [13, 120] }).mark = ⟨1, 1, 1⟩ ∧
    (skip { Scanner.new [] with buffer := [10] }).mark = ⟨1, 2, 0⟩ := by
  constructor
  · rw [c10_skip_lone_cr_keeps_line _ 13 [120] rfl]; decide
  · rw [c10_skip_lone_cr_keeps_line _ 10 [] rfl]; decide

/-! ### Preservation of stream_end_produced

No fetch or scan helper ever writes the stream_end_produced flag:
only next_token sets it, when it hands out the StreamEnd token.  The
following lemmas state this per function.  -/

@[simp] theorem sep_pull_chars (n : Nat) (s : Scanner) :
    (pull_chars n s).stream_end_produced = s.stream_end_produced := by
  induction n generalizing s with
  | zero => rfl
  | succ m ih => rw [pull_chars, ih]

@[simp] theorem sep_lookahead (n : Nat) (s : Scanner) :
    (lookahead n s).stream_end_produced = s.stream_end_produced := by
  unfold lookahead; split
  · rfl
  · exact sep_pull_chars _ _

@[simp] theorem sep_skip (s : Scanner) :
    (skip s).stream_end_produced = s.stream_end_produced := by
  simp only [skip]; split <;> rfl

@[simp] theorem sep_skipN (n : Nat) (s : Scanner) :
    (skipN n s).stream_end_produced = s.stream_end_produced := by
  induction n generalizing s with
  | zero => rfl
  | succ m ih => rw [skipN, ih, sep_skip]

@[simp] theorem sep_skip_line (s : Scanner) :
    (skip_line s).stream_end_produced = s.stream_end_produced := by
  unfold skip_line
  split
  · rw [sep_skip, sep_skip]
  · split
    · exact sep_skip s
    · rfl

@[simp] theorem sep_read_break (acc : List Nat) (s : Scanner) :
    (read_break acc s).2.stream_end_produced = s.stream_end_produced := by
  unfold read_break
  split
  · simp
  · split <;> simp

@[simp] theorem sep_insert_token (s : Scanner) (pos : Nat) (tok : Token) :
    (insert_token s pos tok).stream_end_produced = s.stream_end_produced := rfl

@[simp] theorem sep_allow_simple_key (s : Scanner) :
    (allow_simple_key s).stream_end_produced = s.stream_end_produced := rfl

@[simp] theorem sep_disallow_simple_key (s : Scanner) :
    (disallow_simple_key s).stream_end_produced = s.stream_end_produced := rfl

@[simp] theorem sep_unroll_indent (col : Int) (s : Scanner) :
    (unroll_indent col s).stream_end_produced = s.stream_end_produced := by
  unfold unroll_indent; split <;> rfl

@[simp] theorem sep_roll_indent (col : Nat) (number : Option Nat) (tok : TokenType)
    (mark : Marker) (s : Scanner) :
    (roll_indent col number tok mark s).stream_end_produced = s.stream_end_produced := by
  unfold roll_indent
  repeat' split
  all_goals rfl

@[simp] theorem sep_fetch_stream_start (s : Scanner) :
    (fetch_stream_start s).stream_end_produced = s.stream_end_produced := rfl

@[simp] theorem sep_decrease_flow_level (s : Scanner) :
    (decrease_flow_level s).stream_end_produced = s.stream_end_produced := by
  unfold decrease_flow_level; split <;> rfl

theorem sep_remove_simple_key {s : Scanner} {a : Unit} {s' : Scanner}
    (h : remove_simple_key s = .ok a s') :
    s'.stream_end_produced = s.stream_end_produced := by
  unfold remove_simple_key at h
  repeat' split at h
  all_goals cases h
  rfl

theorem sep_save_simple_key {s : Scanner} {a : Unit} {s' : Scanner}
    (h : save_simple_key s = .ok a s') :
    s'.stream_end_produced = s.stream_end_produced := by
  unfold save_simple_key at h
  split at h
  · obtain ⟨a1, s1, h1, h⟩ := rbind_ok h
    cases h
    simpa using sep_remove_simple_key h1
  · cases h; rfl

theorem sep_stale_simple_keys {s : Scanner} {a : Unit} {s' : Scanner}
    (h : stale_simple_keys s = .ok a s') :
    s'.stream_end_produced = s.stream_end_produced := by
  unfold stale_simple_keys at h
  split at h
  · cases h
  · cases h; rfl

theorem sep_increase_flow_level {s : Scanner} {a : Unit} {s' : Scanner}
    (h : increase_flow_level s = .ok a s') :
    s'.stream_end_produced = s.stream_end_produced := by
  simp only [increase_flow_level] at h
  split at h
  · cases h
  · cases h; rfl

theorem sep_skip_while_not_breakz : ∀ {fuel : Nat} {s : Scanner} {a : Unit} {s' : Scanner},
    skip_while_not_breakz fuel s = .ok a s' →
    s'.stream_end_produced = s.stream_end_produced := by
  intro fuel
  induction fuel with
  | zero => intro s a s' h; cases h
  | succ n ih =>
    intro s a s' h
    simp only [skip_while_not_breakz] at h
    split at h
    · rw [ih h, sep_lookahead, sep_skip]
    · cases h; rfl

theorem sep_skip_blanks : ∀ {fuel : Nat} {s : Scanner} {a : Unit} {s' : Scanner},
    skip_blanks fuel s = .ok a s' → s'.stream_end_produced = s.stream_end_produced := by
  intro fuel
  induction fuel with
  | zero => intro s a s' h; cases h
  | succ n ih =>
    intro s a s' h
    simp only [skip_blanks] at h
    split at h
    · rw [ih h, sep_lookahead, sep_skip]
    · cases h; rfl

theorem sep_skip_blanks_look : ∀ {fuel : Nat} {s : Scanner} {a : Unit} {s' : Scanner},
    skip_blanks_look fuel s = .ok a s' → s'.stream_end_produced = s.stream_end_produced := by
  intro fuel
  induction fuel with
  | zero => intro s a s' h; cases h
  | succ n ih =>
    intro s a s' h
    simp only [skip_blanks_look] at h
    split at h
    · rw [ih h, sep_skip, sep_lookahead]
    · cases h; rw [sep_lookahead]

theorem sep_skip_to_breakz_look : ∀ {fuel : Nat} {s : Scanner} {a : Unit} {s' : Scanner},
    skip_to_breakz_look fuel s = .ok a s' → s'.stream_end_produced = s.stream_end_produced := by
  intro fuel
  induction fuel with
  | zero => intro s a s' h; cases h
  | succ n ih =>
    intro s a s' h
    simp only [skip_to_breakz_look] at h
    split at h
    · rw [ih h, sep_skip, sep_lookahead]
    · cases h; rw [sep_lookahead]

theorem sep_skip_to_next_token : ∀ {fuel : Nat} {s : Scanner} {a : Unit} {s' : Scanner},
    skip_to_next_token fuel s = .ok a s' → s'.stream_end_produced = s.stream_end_produced := by
  intro fuel
  induction fuel with
  | zero => intro s a s' h; cases h
  | succ n ih =>
    intro s a s' h
    simp only [skip_to_next_token] at h
    repeat' split at h
    · exact (ih h).trans (by simp)
    · cases h
    · exact (ih h).trans (by simp)
    · exact (ih h).trans (by simp)
    · exact (ih h).trans (by simp)
    · obtain ⟨a1, s1, h1, h⟩ := rbind_ok h
      rw [ih h, sep_skip_while_not_breakz h1, sep_lookahead]
    · cases h; simp

theorem sep_fetch_stream_end {s : Scanner} {a : Unit} {s' : Scanner}
    (h : fetch_stream_end s = .ok a s') :
    s'.stream_end_produced = s.stream_end_produced := by
  simp only [fetch_stream_end] at h
  obtain ⟨a1, s1, h1, h⟩ := rbind_ok h
  cases h
  have h2 := sep_remove_simple_key h1
  rw [sep_unroll_indent] at h2
  simpa using h2.trans (by split <;> rfl)

theorem sep_fetch_document_indicator {t : TokenType} {s : Scanner} {a : Unit} {s' : Scanner}
    (h : fetch_document_indicator t s = .ok a s') :
    s'.stream_end_produced = s.stream_end_produced := by
  simp only [fetch_document_indicator] at h
  obtain ⟨a1, s1, h1, h⟩ := rbind_ok h
  cases h
  simpa using sep_remove_simple_key h1

theorem sep_fetch_flow_collection_start {t : TokenType} {s : Scanner} {a : Unit} {s' : Scanner}
    (h : fetch_flow_collection_start t s = .ok a s') :
    s'.stream_end_produced = s.stream_end_produced := by
  simp only [fetch_flow_collection_start] at h
  obtain ⟨a1, s1, h1, h⟩ := rbind_ok h
  obtain ⟨a2, s2, h2, h⟩ := rbind_ok h
  cases h
  simpa using (sep_increase_flow_level h2).trans (sep_save_simple_key h1)

theorem sep_fetch_flow_collection_end {t : TokenType} {s : Scanner} {a : Unit} {s' : Scanner}
    (h : fetch_flow_collection_end t s = .ok a s') :
    s'.stream_end_produced = s.stream_end_produced := by
  simp only [fetch_flow_collection_end] at h
  obtain ⟨a1, s1, h1, h⟩ := rbind_ok h
  cases h
  simpa using sep_remove_simple_key h1

theorem sep_fetch_flow_entry {s : Scanner} {a : Unit} {s' : Scanner}
    (h : fetch_flow_entry s = .ok a s') :
    s'.stream_end_produced = s.stream_end_produced := by
  simp only [fetch_flow_entry] at h
  obtain ⟨a1, s1, h1, h⟩ := rbind_ok h
  cases h
  simpa using sep_remove_simple_key h1

theorem sep_fetch_block_entry {s : Scanner} {a : Unit} {s' : Scanner}
    (h : fetch_block_entry s = .ok a s') :
    s'.stream_end_produced = s.stream_end_produced := by
  simp only [fetch_block_entry] at h
  repeat' split at h
  · cases h
  · obtain ⟨a1, s1, h1, h⟩ := rbind_ok h
    cases h
    simpa using sep_remove_simple_key h1
  · cases h

theorem sep_fetch_key {s : Scanner} {a : Unit} {s' : Scanner}
    (h : fetch_key s = .ok a s') :
    s'.stream_end_produced = s.stream_end_produced := by
  simp only [fetch_key] at h
  split at h
  · cases h
  · obtain ⟨a1, s1, h1, h⟩ := rbind_ok h
    split at h <;>
    · cases h
      simpa using (sep_remove_simple_key h1).trans (by split <;> simp)

theorem sep_fetch_value {s : Scanner} {a : Unit} {s' : Scanner}
    (h : fetch_value s = .ok a s') :
    s'.stream_end_produced = s.stream_end_produced := by
  simp only [fetch_value] at h
  repeat' split at h
  all_goals cases h
  all_goals simp

theorem sep_sdn_loop : ∀ {fuel : Nat} {acc : List Nat} {s : Scanner} {a : List Nat}
    {s' : Scanner}, sdn_loop fuel acc s = .ok a s' →
    s'.stream_end_produced = s.stream_end_produced := by
  intro fuel
  induction fuel with
  | zero => intro acc s a s' h; cases h
  | succ n ih =>
    intro acc s a s' h
    simp only [sdn_loop] at h
    split at h
    · rw [ih h]; simp
    · cases h; rfl

theorem sep_scan_directive_name {fuel : Nat} {s : Scanner} {a : List Nat} {s' : Scanner}
    (h : scan_directive_name fuel s = .ok a s') :
    s'.stream_end_produced = s.stream_end_produced := by
  simp only [scan_directive_name] at h
  obtain ⟨a1, s1, h1, h⟩ := rbind_ok h
  repeat' split at h
  all_goals cases h
  simpa using sep_sdn_loop h1

theorem sep_svdn_loop : ∀ {fuel : Nat} {mark : Marker} {val length : Nat} {s : Scanner}
    {a : Nat × Nat} {s' : Scanner}, svdn_loop fuel mark val length s = .ok a s' →
    s'.stream_end_produced = s.stream_end_produced := by
  intro fuel
  induction fuel with
  | zero => intro mark val length s a s' h; cases h
  | succ n ih =>
    intro mark val length s a s' h
    simp only [svdn_loop] at h
    repeat' split at h
    · cases h
    · rw [ih h]; simp
    · cases h; rfl

theorem sep_scan_version_directive_number {fuel : Nat} {mark : Marker} {s : Scanner}
    {a : Nat} {s' : Scanner} (h : scan_version_directive_number fuel mark s = .ok a s') :
    s'.stream_end_produced = s.stream_end_produced := by
  simp only [scan_version_directive_number] at h
  obtain ⟨a1, s1, h1, h⟩ := rbind_ok h
  split at h
  · cases h
  · cases h; simpa using sep_svdn_loop h1

theorem sep_scan_version_directive_value {fuel : Nat} {mark : Marker} {s : Scanner}
    {a : Token} {s' : Scanner} (h : scan_version_directive_value fuel mark s = .ok a s') :
    s'.stream_end_produced = s.stream_end_produced := by
  simp only [scan_version_directive_value] at h
  obtain ⟨a1, s1, h1, h⟩ := rbind_ok h
  obtain ⟨a2, s2, h2, h⟩ := rbind_ok h
  split at h
  · cases h
  · obtain ⟨a3, s3, h3, h⟩ := rbind_ok h
    cases h
    rw [sep_scan_version_directive_number h3, sep_skip,
      sep_scan_version_directive_number h2, sep_skip_blanks h1, sep_lookahead]

theorem sep_sth_loop : ∀ {fuel : Nat} {acc : List Nat} {s : Scanner} {a : List Nat}
    {s' : Scanner}, sth_loop fuel acc s = .ok a s' →
    s'.stream_end_produced = s.stream_end_produced := by
  intro fuel
  induction fuel with
  | zero => intro acc s a s' h; cases h
  | succ n ih =>
    intro acc s a s' h
    simp only [sth_loop] at h
    split at h
    · rw [ih h]; simp
    · cases h; simp

theorem sep_scan_tag_handle {fuel : Nat} {directive : Bool} {mark : Marker} {s : Scanner}
    {a : List Nat} {s' : Scanner} (h : scan_tag_handle fuel directive mark s = .ok a s') :
    s'.stream_end_produced = s.stream_end_produced := by
  simp only [scan_tag_handle] at h
  split at h
  · cases h
  · obtain ⟨a1, s1, h1, h⟩ := rbind_ok h
    repeat' split at h
    all_goals cases h
    · rw [sep_skip, sep_sth_loop h1, sep_skip, sep_lookahead]
    · rw [sep_sth_loop h1, sep_skip, sep_lookahead]

theorem sep_sue_loop : ∀ {fuel : Nat} {mark : Marker} {width code : Nat} {s : Scanner}
    {a : Nat} {s' : Scanner}, sue_loop fuel mark width code s = .ok a s' →
    s'.stream_end_produced = s.stream_end_produced := by
  intro fuel
  induction fuel with
  | zero => intro mark width code s a s' h; cases h
  | succ n ih =>
    intro mark width code s a s' h
    simp only [sue_loop] at h
    repeat' split at h
    all_goals try cases h
    all_goals try simp
    all_goals rw [ih h]; simp

theorem sep_scan_uri_escapes {fuel : Nat} {directive : Bool} {mark : Marker} {s : Scanner}
    {a : Nat} {s' : Scanner} (h : scan_uri_escapes fuel directive mark s = .ok a s') :
    s'.stream_end_produced = s.stream_end_produced := by
  simp only [scan_uri_escapes] at h
  obtain ⟨a1, s1, h1, h⟩ := rbind_ok h
  split at h
  · cases h; exact sep_sue_loop h1
  · cases h

theorem sep_stu_loop : ∀ {fuel : Nat} {directive : Bool} {mark : Marker}
    {string : List Nat} {length : Nat} {s : Scanner} {a : List Nat × Nat} {s' : Scanner},
    stu_loop fuel directive mark string length s = .ok a s' →
    s'.stream_end_produced = s.stream_end_produced := by
  intro fuel
  induction fuel with
  | zero => intro directive mark string length s a s' h; cases h
  | succ n ih =>
    intro directive mark string length s a s' h
    simp only [stu_loop] at h
    repeat' split at h
    · obtain ⟨a1, s1, h1, h⟩ := rbind_ok h
      rw [ih h, sep_scan_uri_escapes h1, sep_lookahead]
    · rw [ih h, sep_skip, sep_lookahead]
    · cases h; simp

theorem sep_scan_tag_uri {fuel : Nat} {directive is_secondary : Bool} {head : List Nat}
    {mark : Marker} {s : Scanner} {a : List Nat} {s' : Scanner}
    (h : scan_tag_uri fuel directive is_secondary head mark s = .ok a s') :
    s'.stream_end_produced = s.stream_end_produced := by
  simp only [scan_tag_uri] at h
  obtain ⟨a1, s1, h1, h⟩ := rbind_ok h
  split at h
  · cases h
  · cases h; exact sep_stu_loop h1

theorem sep_scan_tag_directive_value {fuel : Nat} {mark : Marker} {s : Scanner}
    {a : Token} {s' : Scanner} (h : scan_tag_directive_value fuel mark s = .ok a s') :
    s'.stream_end_produced = s.stream_end_produced := by
  simp only [scan_tag_directive_value] at h
  obtain ⟨a1, s1, h1, h⟩ := rbind_ok h
  obtain ⟨a2, s2, h2, h⟩ := rbind_ok h
  obtain ⟨a3, s3, h3, h⟩ := rbind_ok h
  obtain ⟨a4, s4, h4, h⟩ := rbind_ok h
  split at h
  · cases h
    rw [sep_lookahead, sep_scan_tag_uri h4, sep_skip_blanks h3, sep_lookahead,
      sep_scan_tag_handle h2, sep_skip_blanks h1, sep_lookahead]
  · cases h

theorem sep_scan_directive {fuel : Nat} {s : Scanner} {a : Token} {s' : Scanner}
    (h : scan_directive fuel s = .ok a s') :
    s'.stream_end_produced = s.stream_end_produced := by
  simp only [scan_directive] at h
  obtain ⟨a1, s1, h1, h⟩ := rbind_ok h
  obtain ⟨a2, s2, h2, h⟩ := rbind_ok h
  obtain ⟨a3, s3, h3, h⟩ := rbind_ok h
  obtain ⟨a4, s4, h4, h⟩ := rbind_ok h
  have hs2 : s2.stream_end_produced = s.stream_end_produced := by
    have hbase : s1.stream_end_produced = s.stream_end_produced := by
      simpa using sep_scan_directive_name h1
    repeat' split at h2
    · rw [sep_scan_version_directive_value h2, hbase]
    · rw [sep_scan_tag_directive_value h2, hbase]
    · obtain ⟨a5, s5, h5, h2c⟩ := rbind_ok h2
      cases h2c
      rw [sep_skip_while_not_breakz h5, sep_lookahead, hbase]
  have hs3 : s3.stream_end_produced = s.stream_end_produced := by
    rw [sep_skip_blanks h3, sep_lookahead, hs2]
  have hs4 : s4.stream_end_produced = s.stream_end_produced := by
    split at h4
    · rw [sep_skip_while_not_breakz h4, hs3]
    · cases h4; exact hs3
  split at h
  · cases h
  · cases h
    split
    · rw [sep_skip_line, sep_lookahead, hs4]
    · exact hs4

theorem sep_fetch_directive {fuel : Nat} {s : Scanner} {a : Unit} {s' : Scanner}
    (h : fetch_directive fuel s = .ok a s') :
    s'.stream_end_produced = s.stream_end_produced := by
  simp only [fetch_directive] at h
  obtain ⟨a1, s1, h1, h⟩ := rbind_ok h
  obtain ⟨a2, s2, h2, h⟩ := rbind_ok h
  cases h
  have := sep_remove_simple_key h1
  rw [sep_unroll_indent] at this
  simpa using (sep_scan_directive h2).trans (by simpa using this)

theorem sep_sa_loop : ∀ {fuel : Nat} {acc : List Nat} {s : Scanner} {a : List Nat}
    {s' : Scanner}, sa_loop fuel acc s = .ok a s' →
    s'.stream_end_produced = s.stream_end_produced := by
  intro fuel
  induction fuel with
  | zero => intro acc s a s' h; cases h
  | succ n ih =>
    intro acc s a s' h
    simp only [sa_loop] at h
    split at h
    · rw [ih h]; simp
    · cases h; rfl

theorem sep_scan_anchor {fuel : Nat} {is_alias : Bool} {s : Scanner} {a : Token}
    {s' : Scanner} (h : scan_anchor fuel is_alias s = .ok a s') :
    s'.stream_end_produced = s.stream_end_produced := by
  simp only [scan_anchor] at h
  obtain ⟨a1, s1, h1, h⟩ := rbind_ok h
  repeat' split at h
  all_goals cases h
  all_goals rw [sep_sa_loop h1]; simp

theorem sep_fetch_anchor {fuel : Nat} {is_alias : Bool} {s : Scanner} {a : Unit}
    {s' : Scanner} (h : fetch_anchor fuel is_alias s = .ok a s') :
    s'.stream_end_produced = s.stream_end_produced := by
  simp only [fetch_anchor] at h
  obtain ⟨a1, s1, h1, h⟩ := rbind_ok h
  obtain ⟨a2, s2, h2, h⟩ := rbind_ok h
  cases h
  simpa using (sep_scan_anchor h2).trans (by simpa using sep_save_simple_key h1)

theorem sep_scan_tag {fuel : Nat} {s : Scanner} {a : Token} {s' : Scanner}
    (h : scan_tag fuel s = .ok a s') :
    s'.stream_end_produced = s.stream_end_produced := by
  simp only [scan_tag] at h
  obtain ⟨a1, s1, h1, h⟩ := rbind_ok h
  have hs1 : s1.stream_end_produced = s.stream_end_produced := by
    split at h1
    · obtain ⟨a2, s2, h2, h1⟩ := rbind_ok h1
      split at h1
      · cases h1
      · cases h1; rw [sep_skip, sep_scan_tag_uri h2, sep_skip, sep_skip, sep_lookahead]
    · obtain ⟨a2, s2, h2, h1⟩ := rbind_ok h1
      split at h1
      · obtain ⟨a3, s3, h3, h1⟩ := rbind_ok h1
        cases h1
        rw [sep_scan_tag_uri h3, sep_scan_tag_handle h2, sep_lookahead]
      · obtain ⟨a3, s3, h3, h1⟩ := rbind_ok h1
        have base : s3.stream_end_produced = s.stream_end_produced := by
          rw [sep_scan_tag_uri h3, sep_scan_tag_handle h2, sep_lookahead]
        split at h1
        all_goals cases h1
        all_goals exact base
  split at h
  · cases h; rw [sep_lookahead, hs1]
  · cases h

theorem sep_fetch_tag {fuel : Nat} {s : Scanner} {a : Unit} {s' : Scanner}
    (h : fetch_tag fuel s = .ok a s') :
    s'.stream_end_produced = s.stream_end_produced := by
  simp only [fetch_tag] at h
  obtain ⟨a1, s1, h1, h⟩ := rbind_ok h
  obtain ⟨a2, s2, h2, h⟩ := rbind_ok h
  cases h
  simpa using (sep_scan_tag h2).trans (by simpa using sep_save_simple_key h1)

theorem sep_bs_header {start_mark : Marker} {s : Scanner} {a : Int × Nat} {s' : Scanner}
    (h : bs_header start_mark s = .ok a s') :
    s'.stream_end_produced = s.stream_end_produced := by
  simp only [bs_header] at h
  repeat' split at h
  all_goals cases h
  all_goals simp

theorem sep_sbsi_spaces : ∀ {fuel indent : Nat} {s : Scanner} {a : Unit} {s' : Scanner},
    sbsi_spaces fuel indent s = .ok a s' →
    s'.stream_end_produced = s.stream_end_produced := by
  intro fuel
  induction fuel with
  | zero => intro indent s a s' h; cases h
  | succ n ih =>
    intro indent s a s' h
    simp only [sbsi_spaces] at h
    split at h
    · rw [ih h]; simp
    · cases h; simp

theorem sep_skip_block_scalar_indent : ∀ {fuel indent : Nat} {breaks : List Nat}
    {s : Scanner} {a : List Nat} {s' : Scanner},
    skip_block_scalar_indent fuel indent breaks s = .ok a s' →
    s'.stream_end_produced = s.stream_end_produced := by
  intro fuel
  induction fuel with
  | zero => intro indent breaks s a s' h; cases h
  | succ n ih =>
    intro indent breaks s a s' h
    simp only [skip_block_scalar_indent] at h
    obtain ⟨a1, s1, h1, h⟩ := rbind_ok h
    split at h
    · rw [ih h]
      simpa using sep_sbsi_spaces h1
    · cases h
      simpa using sep_sbsi_spaces h1

theorem sep_sbsfli_spaces : ∀ {fuel : Nat} {s : Scanner} {a : Unit} {s' : Scanner},
    sbsfli_spaces fuel s = .ok a s' →
    s'.stream_end_produced = s.stream_end_produced := by
  intro fuel
  induction fuel with
  | zero => intro s a s' h; cases h
  | succ n ih =>
    intro s a s' h
    simp only [sbsfli_spaces] at h
    split at h
    · rw [ih h]; simp
    · cases h; simp

theorem sep_skip_block_scalar_first_line_indent : ∀ {fuel max_indent : Nat}
    {breaks : List Nat} {s : Scanner} {a : Nat × List Nat} {s' : Scanner},
    skip_block_scalar_first_line_indent fuel max_indent breaks s = .ok a s' →
    s'.stream_end_produced = s.stream_end_produced := by
  intro fuel
  induction fuel with
  | zero => intro mi breaks s a s' h; cases h
  | succ n ih =>
    intro mi breaks s a s' h
    simp only [skip_block_scalar_first_line_indent] at h
    obtain ⟨a1, s1, h1, h⟩ := rbind_ok h
    split at h
    · rw [ih h]
      simpa using sep_sbsfli_spaces h1
    · cases h
      simpa using sep_sbsfli_spaces h1

theorem sep_bs_inner : ∀ {fuel : Nat} {string : List Nat} {s : Scanner} {a : List Nat}
    {s' : Scanner}, bs_inner fuel string s = .ok a s' →
    s'.stream_end_produced = s.stream_end_produced := by
  intro fuel
  induction fuel with
  | zero => intro string s a s' h; cases h
  | succ n ih =>
    intro string s a s' h
    simp only [bs_inner] at h
    split at h
    · rw [ih h]; simp
    · cases h; rfl

theorem sep_bs_loop : ∀ {fuel : Nat} {literal : Bool} {indent : Nat}
    {string lb tb : List Nat} {lblank : Bool} {s : Scanner}
    {a : List Nat × List Nat × List Nat} {s' : Scanner},
    bs_loop fuel literal indent string lb tb lblank s = .ok a s' →
    s'.stream_end_produced = s.stream_end_produced := by
  intro fuel
  induction fuel with
  | zero => intro literal indent string lb tb lblank s a s' h; cases h
  | succ n ih =>
    intro literal indent string lb tb lblank s a s' h
    simp only [bs_loop] at h
    split at h
    · obtain ⟨a1, s1, h1, h⟩ := rbind_ok h
      split at h
      · cases h; exact sep_bs_inner h1
      · obtain ⟨a2, s2, h2, h⟩ := rbind_ok h
        rw [ih h, sep_skip_block_scalar_indent h2]
        simpa using sep_bs_inner h1
    · cases h; rfl

theorem sep_scan_block_scalar {fuel : Nat} {literal : Bool} {s : Scanner} {a : Token}
    {s' : Scanner} (h : scan_block_scalar fuel literal s = .ok a s') :
    s'.stream_end_produced = s.stream_end_produced := by
  simp only [scan_block_scalar] at h
  obtain ⟨a1, s1, h1, h⟩ := rbind_ok h
  obtain ⟨a2, s2, h2, h⟩ := rbind_ok h
  obtain ⟨a3, s3, h3, h⟩ := rbind_ok h
  have hs3 : s3.stream_end_produced = s.stream_end_produced := by
    have hb : s1.stream_end_produced = s.stream_end_produced := by
      simpa using sep_bs_header h1
    have hb2 : s2.stream_end_produced = s.stream_end_produced := by
      rw [sep_skip_blanks_look h2, hb]
    split at h3
    · rw [sep_skip_to_breakz_look h3, hb2]
    · cases h3; exact hb2
  split at h
  · cases h
  · set sM := (if is_break (ch s3) = true then skip_line (lookahead 2 s3) else s3) with hsM
    have hsMsep : sM.stream_end_produced = s.stream_end_produced := by
      rw [hsM]; split
      · rw [sep_skip_line, sep_lookahead, hs3]
      · exact hs3
    split at h
    · cases h
    · obtain ⟨a4, s4, h4, h⟩ := rbind_ok h
      obtain ⟨a5, s5, h5, h⟩ := rbind_ok h
      have hs4 : s4.stream_end_produced = s.stream_end_produced := by
        split at h4
        · obtain ⟨a6, s6, h6, h4⟩ := rbind_ok h4
          cases h4
          rw [sep_skip_block_scalar_first_line_indent h6, sep_lookahead, hsMsep]
        · obtain ⟨a6, s6, h6, h4⟩ := rbind_ok h4
          cases h4
          rw [sep_skip_block_scalar_indent h6, sep_lookahead, hsMsep]
      split at h
      all_goals cases h
      all_goals rw [sep_bs_loop h5, sep_lookahead, hs4]

theorem sep_fetch_block_scalar {fuel : Nat} {literal : Bool} {s : Scanner} {a : Unit}
    {s' : Scanner} (h : fetch_block_scalar fuel literal s = .ok a s') :
    s'.stream_end_produced = s.stream_end_produced := by
  simp only [fetch_block_scalar] at h
  obtain ⟨a1, s1, h1, h⟩ := rbind_ok h
  obtain ⟨a2, s2, h2, h⟩ := rbind_ok h
  cases h
  simpa using (sep_scan_block_scalar h2).trans (by simpa using sep_save_simple_key h1)

theorem sep_sfs_hex_escape {start_mark : Marker} {code_length : Nat} {s : Scanner}
    {a : Nat} {s' : Scanner} (h : sfs_hex_escape start_mark code_length s = .ok a s') :
    s'.stream_end_produced = s.stream_end_produced := by
  simp only [sfs_hex_escape] at h
  repeat' split at h
  all_goals cases h
  simp

set_option maxHeartbeats 1000000 in
theorem sep_sfs_inner : ∀ {fuel : Nat} {single : Bool} {start_mark : Marker}
    {string : List Nat} {s : Scanner} {a : List Nat × Bool} {s' : Scanner},
    sfs_inner fuel single start_mark string s = .ok a s' →
    s'.stream_end_produced = s.stream_end_produced := by
  intro fuel
  induction fuel with
  | zero => intro single start_mark string s a s' h; cases h
  | succ n ih =>
    intro single start_mark string s a s' h
    simp only [sfs_inner] at h
    repeat' split at h
    all_goals try cases h
    all_goals try simp
    all_goals try exact (ih h).trans (by simp)
    all_goals obtain ⟨a1, s1, h1, h⟩ := rbind_ok h
    all_goals exact (ih h).trans (by simpa using sep_sfs_hex_escape h1)

theorem sep_sfs_blanks : ∀ {fuel : Nat} {lblanks : Bool} {ws lb tb : List Nat}
    {s : Scanner} {a : Bool × List Nat × List Nat × List Nat} {s' : Scanner},
    sfs_blanks fuel lblanks ws lb tb s = .ok a s' →
    s'.stream_end_produced = s.stream_end_produced := by
  intro fuel
  induction fuel with
  | zero => intro lblanks ws lb tb s a s' h; cases h
  | succ n ih =>
    intro lblanks ws lb tb s a s' h
    simp only [sfs_blanks] at h
    repeat' split at h
    all_goals try cases h
    all_goals try simp
    all_goals rw [ih h]; simp

theorem sep_sfs_loop : ∀ {fuel : Nat} {single : Bool} {start_mark : Marker}
    {string lb tb ws : List Nat} {s : Scanner} {a : List Nat} {s' : Scanner},
    sfs_loop fuel single start_mark string lb tb ws s = .ok a s' →
    s'.stream_end_produced = s.stream_end_produced := by
  intro fuel
  induction fuel with
  | zero => intro single start_mark string lb tb ws s a s' h; cases h
  | succ n ih =>
    intro single start_mark string lb tb ws s a s' h
    simp only [sfs_loop] at h
    repeat' split at h
    all_goals try cases h
    · obtain ⟨a1, s1, h1, h⟩ := rbind_ok h
      split at h
      · cases h
        rw [sep_lookahead]
        simpa using sep_sfs_inner h1
      · obtain ⟨a2, s2, h2, h⟩ := rbind_ok h
        rw [ih h, sep_sfs_blanks h2, sep_lookahead]
        simpa using sep_sfs_inner h1

theorem sep_scan_flow_scalar {fuel : Nat} {single : Bool} {s : Scanner} {a : Token}
    {s' : Scanner} (h : scan_flow_scalar fuel single s = .ok a s') :
    s'.stream_end_produced = s.stream_end_produced := by
  simp only [scan_flow_scalar] at h
  obtain ⟨a1, s1, h1, h⟩ := rbind_ok h
  split at h
  all_goals cases h
  all_goals rw [sep_skip, sep_sfs_loop h1, sep_skip]

theorem sep_fetch_flow_scalar {fuel : Nat} {single : Bool} {s : Scanner} {a : Unit}
    {s' : Scanner} (h : fetch_flow_scalar fuel single s = .ok a s') :
    s'.stream_end_produced = s.stream_end_produced := by
  simp only [fetch_flow_scalar] at h
  obtain ⟨a1, s1, h1, h⟩ := rbind_ok h
  obtain ⟨a2, s2, h2, h⟩ := rbind_ok h
  cases h
  simpa using (sep_scan_flow_scalar h2).trans (by simpa using sep_save_simple_key h1)

theorem sep_sps_inner : ∀ {fuel : Nat} {string lb tb ws : List Nat} {lblanks : Bool}
    {s : Scanner} {a : List Nat × List Nat × List Nat × List Nat × Bool} {s' : Scanner},
    sps_inner fuel string lb tb ws lblanks s = .ok a s' →
    s'.stream_end_produced = s.stream_end_produced := by
  intro fuel
  induction fuel with
  | zero => intro string lb tb ws lblanks s a s' h; cases h
  | succ n ih =>
    intro string lb tb ws lblanks s a s' h
    simp only [sps_inner] at h
    repeat' split at h
    all_goals try cases h
    all_goals try simp
    all_goals rw [ih h]; simp

theorem sep_sps_blanks : ∀ {fuel : Nat} {start_mark : Marker} {indent : Int}
    {lb tb ws : List Nat} {lblanks : Bool} {s : Scanner}
    {a : List Nat × List Nat × List Nat × Bool} {s' : Scanner},
    sps_blanks fuel start_mark indent lb tb ws lblanks s = .ok a s' →
    s'.stream_end_produced = s.stream_end_produced := by
  intro fuel
  induction fuel with
  | zero => intro start_mark indent lb tb ws lblanks s a s' h; cases h
  | succ n ih =>
    intro start_mark indent lb tb ws lblanks s a s' h
    simp only [sps_blanks] at h
    repeat' split at h
    all_goals try cases h
    all_goals try simp
    all_goals rw [ih h]; simp

theorem sep_sps_loop : ∀ {fuel : Nat} {indent : Int} {start_mark : Marker}
    {string lb tb ws : List Nat} {lblanks : Bool} {s : Scanner} {a : List Nat × Bool}
    {s' : Scanner}, sps_loop fuel indent start_mark string lb tb ws lblanks s = .ok a s' →
    s'.stream_end_produced = s.stream_end_produced := by
  intro fuel
  induction fuel with
  | zero => intro indent start_mark string lb tb ws lblanks s a s' h; cases h
  | succ n ih =>
    intro indent start_mark string lb tb ws lblanks s a s' h
    simp only [sps_loop] at h
    repeat' split at h
    all_goals try cases h
    all_goals try simp
    · obtain ⟨a1, s1, h1, h⟩ := rbind_ok h
      split at h
      · cases h
        simpa using sep_sps_inner h1
      · obtain ⟨a2, s2, h2, h⟩ := rbind_ok h
        split at h
        · cases h
          rw [sep_sps_blanks h2]
          simpa using sep_sps_inner h1
        · rw [ih h, sep_sps_blanks h2]
          simpa using sep_sps_inner h1

theorem sep_scan_plain_scalar {fuel : Nat} {s : Scanner} {a : Token} {s' : Scanner}
    (h : scan_plain_scalar fuel s = .ok a s') :
    s'.stream_end_produced = s.stream_end_produced := by
  simp only [scan_plain_scalar] at h
  obtain ⟨a1, s1, h1, h⟩ := rbind_ok h
  cases h
  have := sep_sps_loop h1
  split <;> simpa using this

theorem sep_fetch_plain_scalar {fuel : Nat} {s : Scanner} {a : Unit} {s' : Scanner}
    (h : fetch_plain_scalar fuel s = .ok a s') :
    s'.stream_end_produced = s.stream_end_produced := by
  simp only [fetch_plain_scalar] at h
  obtain ⟨a1, s1, h1, h⟩ := rbind_ok h
  obtain ⟨a2, s2, h2, h⟩ := rbind_ok h
  cases h
  simpa using (sep_scan_plain_scalar h2).trans (by simpa using sep_save_simple_key h1)

theorem sep_fetch_dispatch_char {fuel : Nat} {c nc : Nat} {s : Scanner} {a : Unit}
    {s' : Scanner} (h : fetch_dispatch_char fuel c nc s = .ok a s') :
    s'.stream_end_produced = s.stream_end_produced := by
  unfold fetch_dispatch_char at h
  rcases ite_eq_ok h with ⟨_, h⟩ | ⟨_, h⟩
  · exact sep_fetch_flow_collection_start h
  rcases ite_eq_ok h with ⟨_, h⟩ | ⟨_, h⟩
  · exact sep_fetch_flow_collection_start h
  rcases ite_eq_ok h with ⟨_, h⟩ | ⟨_, h⟩
  · exact sep_fetch_flow_collection_end h
  rcases ite_eq_ok h with ⟨_, h⟩ | ⟨_, h⟩
  · exact sep_fetch_flow_collection_end h
  rcases ite_eq_ok h with ⟨_, h⟩ | ⟨_, h⟩
  · exact sep_fetch_flow_entry h
  rcases ite_eq_ok h with ⟨_, h⟩ | ⟨_, h⟩
  · exact sep_fetch_block_entry h
  rcases ite_eq_ok h with ⟨_, h⟩ | ⟨_, h⟩
  · exact sep_fetch_key h
  rcases ite_eq_ok h with ⟨_, h⟩ | ⟨_, h⟩
  · exact sep_fetch_value h
  rcases ite_eq_ok h with ⟨_, h⟩ | ⟨_, h⟩
  · exact sep_fetch_anchor h
  rcases ite_eq_ok h with ⟨_, h⟩ | ⟨_, h⟩
  · exact sep_fetch_anchor h
  rcases ite_eq_ok h with ⟨_, h⟩ | ⟨_, h⟩
  · exact sep_fetch_tag h
  rcases ite_eq_ok h with ⟨_, h⟩ | ⟨_, h⟩
  · exact sep_fetch_block_scalar h
  rcases ite_eq_ok h with ⟨_, h⟩ | ⟨_, h⟩
  · exact sep_fetch_block_scalar h
  rcases ite_eq_ok h with ⟨_, h⟩ | ⟨_, h⟩
  · exact sep_fetch_flow_scalar h
  rcases ite_eq_ok h with ⟨_, h⟩ | ⟨_, h⟩
  · exact sep_fetch_flow_scalar h
  rcases ite_eq_ok h with ⟨_, h⟩ | ⟨_, h⟩
  · exact sep_fetch_plain_scalar h
  rcases ite_eq_ok h with ⟨_, h⟩ | ⟨_, h⟩
  · exact sep_fetch_plain_scalar h
  rcases ite_eq_ok h with ⟨_, h⟩ | ⟨_, h⟩
  · cases h
  exact sep_fetch_plain_scalar h

theorem sep_fetch_dispatch {fuel : Nat} {s : Scanner} {a : Unit} {s' : Scanner}
    (h : fetch_dispatch fuel s = .ok a s') :
    s'.stream_end_produced = s.stream_end_produced := by
  unfold fetch_dispatch at h
  rcases ite_eq_ok h with ⟨_, h⟩ | ⟨_, h⟩
  · exact sep_fetch_stream_end h
  rcases ite_eq_ok h with ⟨_, h⟩ | ⟨_, h⟩
  · exact sep_fetch_directive h
  rcases ite_eq_ok h with ⟨_, h⟩ | ⟨_, h⟩
  · exact sep_fetch_document_indicator h
  rcases ite_eq_ok h with ⟨_, h⟩ | ⟨_, h⟩
  · exact sep_fetch_document_indicator h
  exact sep_fetch_dispatch_char h

theorem sep_fetch_next_token {fuel : Nat} {s : Scanner} {a : Unit} {s' : Scanner}
    (h : fetch_next_token fuel s = .ok a s') :
    s'.stream_end_produced = s.stream_end_produced := by
  simp only [fetch_next_token] at h
  split at h
  · cases h; simp
  · obtain ⟨a1, s1, h1, h⟩ := rbind_ok h
    obtain ⟨a2, s2, h2, h⟩ := rbind_ok h
    rw [sep_fetch_dispatch h, sep_lookahead, sep_unroll_indent, sep_stale_simple_keys h2,
      sep_skip_to_next_token h1, sep_lookahead]

theorem sep_fetch_more_tokens : ∀ {fuel : Nat} {s : Scanner} {a : Unit} {s' : Scanner},
    fetch_more_tokens fuel s = .ok a s' →
    s'.stream_end_produced = s.stream_end_produced := by
  intro fuel
  induction fuel with
  | zero => intro s a s' h; cases h
  | succ n ih =>
    intro s a s' h
    simp only [fetch_more_tokens] at h
    split at h
    · obtain ⟨a1, s1, h1, h⟩ := rbind_ok h
      rw [ih h, sep_fetch_next_token h1]
    · obtain ⟨a1, s1, h1, h⟩ := rbind_ok h
      split at h
      · obtain ⟨a2, s2, h2, h⟩ := rbind_ok h
        rw [ih h, sep_fetch_next_token h2, sep_stale_simple_keys h1]
      · cases h
        simpa using sep_stale_simple_keys h1

/-! ### The driver pop: next_token facts -/

/-- next_token yields no token exactly at a state that has already
produced StreamEnd, and then leaves the state unchanged. -/
theorem next_token_ok_none {fuel : Nat} {s : Scanner} {s1 : Scanner}
    (h : next_token fuel s = .ok none s1) :
    s.stream_end_produced = true ∧ s1 = s := by
  simp only [next_token] at h
  split at h
  · cases h; exact ⟨by assumption, rfl⟩
  · obtain ⟨a1, sm, h1, h⟩ := rbind_ok h
    split at h
    · cases h
    · simp at h

/-- A state handing out a token had not yet produced StreamEnd, and
the flag afterwards is set exactly when the token was StreamEnd. -/
theorem next_token_ok_some {fuel : Nat} {s : Scanner} {t : Token} {s1 : Scanner}
    (h : next_token fuel s = .ok (some t) s1) :
    s.stream_end_produced = false ∧
      (t.kind = .StreamEnd → s1.stream_end_produced = true) ∧
      (t.kind ≠ .StreamEnd → s1.stream_end_produced = false) := by
  simp only [next_token] at h
  split at h
  · simp at h
  · rename_i hflag0
    have hflag : s.stream_end_produced = false := by simpa using hflag0
    obtain ⟨a1, sm, h1, h⟩ := rbind_ok h
    have hm : sm.stream_end_produced = s.stream_end_produced := by
      split at h1
      · exact sep_fetch_more_tokens h1
      · cases h1; rfl
    split at h
    · cases h
    · split at h
      · rename_i hk
        cases h
        exact ⟨hflag, fun _ => rfl, fun hne => absurd hk hne⟩
      · rename_i hk
        cases h
        refine ⟨hflag, fun hse => ?_, fun _ => ?_⟩
        · exact (hk hse).elim
        · simpa using hm.trans hflag

/-- After stream_end_produced is set, Iterator::next yields no token
and leaves the scanner unchanged. -/
theorem iter_next_flagged {fuel : Nat} {s : Scanner} (hf : s.stream_end_produced = true) :
    iter_next fuel s = some (none, s) := by
  unfold iter_next
  split
  · rfl
  · unfold next_token
    rw [if_pos hf]

/-- Collecting from a scanner whose StreamEnd was already handed out
yields nothing. -/
theorem collect_flagged : ∀ {fuel : Nat} {s : Scanner} {ts : List Token} {s' : Scanner},
    collect fuel s = some (ts, s') → s.stream_end_produced = true → ts = [] ∧ s' = s := by
  intro fuel
  cases fuel with
  | zero => intro s ts s' h hf; cases h
  | succ n =>
    intro s ts s' h hf
    rw [collect, iter_next_flagged hf] at h
    simp only [Option.some.injEq, Prod.mk.injEq] at h
    exact ⟨h.1.symm, h.2.symm⟩

/-- A completed collect run that ends without a latched error has
handed out exactly one StreamEnd, as its last token, and set
stream_end_produced. -/
theorem collect_end : ∀ {fuel : Nat} {s : Scanner} {ts : List Token} {s' : Scanner},
    collect fuel s = some (ts, s') → s.stream_end_produced = false → s'.error = none →
    (kinds ts).count .StreamEnd = 1 ∧ (kinds ts).getLast? = some .StreamEnd ∧
      s'.stream_end_produced = true := by
  intro fuel
  induction fuel with
  | zero => intro s ts s' h hf he; cases h
  | succ n ih =>
    intro s ts s' h hf he
    rw [collect] at h
    rcases hit : iter_next n s with _ | ⟨topt, s2⟩ <;> rw [hit] at h
    · cases h
    · unfold iter_next at hit
      by_cases herr : s.error.isSome
      · rw [if_pos herr] at hit
        obtain ⟨ht, hs2⟩ : none = topt ∧ s = s2 := by simpa using hit
        rw [← ht, ← hs2] at h
        have h2 : some (([] : List Token), s) = some (ts, s') := h
        obtain ⟨hts, hs⟩ : [] = ts ∧ s = s' := by simpa using h2
        subst hts
        subst hs
        rw [he] at herr
        simp at herr
      · rw [if_neg herr] at hit
        rcases hnt : next_token n s with ⟨t3, s3⟩ | e | _ <;> rw [hnt] at hit
        · obtain ⟨ht, hs2⟩ : t3 = topt ∧ s3 = s2 := by simpa using hit
          rw [ht, hs2] at hnt
          clear ht hs2 hit
          rcases topt with _ | t
          · obtain ⟨hflag, _⟩ := next_token_ok_none hnt
            rw [hflag] at hf
            cases hf
          · obtain ⟨hflag0, hse, hnse⟩ := next_token_ok_some hnt
            have h2 : (match collect n s2 with
                | none => none
                | some (ts, s3) => some (t :: ts, s3)) = some (ts, s') := h
            clear h
            rcases hcol : collect n s2 with _ | ⟨ts2, s3'⟩ <;> rw [hcol] at h2
            · cases h2
            · have h3 : some (t :: ts2, s3') = some (ts, s') := h2
              obtain ⟨hts, hs⟩ : t :: ts2 = ts ∧ s3' = s' := by simpa using h3
              subst hts
              subst hs
              by_cases hk : t.kind = .StreamEnd
              · obtain ⟨hts2, hs2⟩ := collect_flagged hcol (hse hk)
                subst hts2
                subst hs2
                refine ⟨?_, ?_, hse hk⟩ <;> simp [kinds, hk]
              · have hflag2 := hnse hk
                obtain ⟨hcnt, hlast, hflag3⟩ := ih hcol hflag2 he
                have hne : ts2 ≠ [] := by
                  intro hnil
                  rw [hnil] at hcnt
                  simp [kinds] at hcnt
                refine ⟨?_, ?_, hflag3⟩
                · simp only [kinds, List.map_cons, List.count_cons] at hcnt ⊢
                  rw [hcnt]
                  simp [hk]
                · rcases ts2 with _ | ⟨b, l⟩
                  · exact absurd rfl hne
                  · simpa [kinds] using hlast
        · obtain ⟨ht, hs2⟩ : none = topt ∧ ({ s with error := some e } : Scanner) = s2 := by
            simpa using hit
          rw [← ht, ← hs2] at h
          have h2 : some (([] : List Token), ({ s with error := some e } : Scanner)) =
              some (ts, s') := h
          obtain ⟨hts, hs⟩ : ([] : List Token) = ts ∧
              ({ s with error := some e } : Scanner) = s' := by simpa using h2
          subst hts
          subst hs
          simp at he
        · cases hit

/-- The first Iterator::next call on a fresh scanner can only yield
the StreamStart(UTF-8) token at the initial marker, whatever the
input. -/
theorem iter_next_first : ∀ (fuel : Nat) (inp : List Nat) (topt : Option Token) (s2 : Scanner),
    iter_next fuel (Scanner.new inp) = some (topt, s2) →
    topt = some ⟨⟨0, 1, 0⟩, .StreamStart .Utf8⟩ := by
  intro fuel
  match fuel with
  | 0 =>
    intro inp topt s2 h
    simp [iter_next, Scanner.new, next_token, fetch_more_tokens, rbind] at h
  | 1 =>
    intro inp topt s2 h
    cases inp <;>
      simp [iter_next, Scanner.new, next_token, fetch_more_tokens, fetch_next_token,
        lookahead, pull_chars, rdr_next, fetch_stream_start, rbind] at h
  | (f + 2) =>
    intro inp topt s2 h
    cases inp <;>
    · simp [iter_next, Scanner.new, next_token, fetch_more_tokens, fetch_next_token,
        lookahead, pull_chars, rdr_next, fetch_stream_start, stale_simple_keys,
        stale_keys_go, SimpleKey.new, rbind] at h
      exact h.1.symm

/-- C2: for every input stream, any first token yielded through
Iterator::next is StreamStart(UTF-8) (with the initial marker), and
when the run ends with no latched error the yielded sequence contains
exactly one StreamEnd, which is its last element, and every further
pull yields no token and leaves the scanner unchanged. -/
theorem c2_stream_frame : ∀ (inp : List Nat) (fuel : Nat) (ts : List Token) (s' : Scanner),
    collect fuel (Scanner.new inp) = some (ts, s') →
    (∀ t0, ts.head? = some t0 → t0 = ⟨⟨0, 1, 0⟩, .StreamStart .Utf8⟩) ∧
    (s'.error = none →
      (kinds ts).count .StreamEnd = 1 ∧ (kinds ts).getLast? = some .StreamEnd ∧
      ∀ fuel2, iter_next fuel2 s' = some (none, s')) := by
  intro inp fuel ts s' h
  constructor
  · intro t0 ht0
    rcases fuel with _ | f
    · cases h
    · rw [collect] at h
      rcases hit : iter_next f (Scanner.new inp) with _ | ⟨topt, s2⟩ <;> rw [hit] at h
      · cases h
      · have hfirst := iter_next_first f inp topt s2 hit
        subst hfirst
        have h2 : (match collect f s2 with
            | none => none
            | some (ts, s3) =>
              some ((⟨⟨0, 1, 0⟩, .StreamStart .Utf8⟩ : Token) :: ts, s3)) =
            some (ts, s') := h
        clear h
        rcases hcol : collect f s2 with _ | ⟨ts2, s3'⟩ <;> rw [hcol] at h2
        · cases h2
        · have h3 : some ((⟨⟨0, 1, 0⟩, .StreamStart .Utf8⟩ : Token) :: ts2, s3') =
              some (ts, s') := h2
          obtain ⟨hts, _⟩ : (⟨⟨0, 1, 0⟩, .StreamStart .Utf8⟩ : Token) :: ts2 = ts ∧ s3' = s' := by
            simpa using h3
          rw [← hts] at ht0
          simpa using ht0.symm
  · intro he
    obtain ⟨h1, h2, h3⟩ := collect_end h rfl he
    exact ⟨h1, h2, fun fuel2 => iter_next_flagged h3⟩

theorem c2_witness : ∃ ts s', collect 100 (Scanner.new (cp "a: 1\n")) = some (ts, s') ∧
    (∀ t0, ts.head? = some t0 → t0 = ⟨⟨0, 1, 0⟩, .StreamStart .Utf8⟩) ∧
    (kinds ts).count .StreamEnd = 1 ∧ (kinds ts).getLast? = some .StreamEnd := by
  rcases hcol : collect 100 (Scanner.new (cp "a: 1\n")) with _ | ⟨ts, s'⟩
  · exact absurd hcol (by decide)
  · have h := c2_stream_frame (cp "a: 1\n") 100 ts s' hcol
    have he : s'.error = none := by
      have hm : (collect 100 (Scanner.new (cp "a: 1\n"))).map (fun p => p.2.error) =
          some none := by decide
      rw [hcol] at hm
      simpa using hm
    exact ⟨ts, s', rfl, h.1, (h.2 he).1, (h.2 he).2.1⟩

/-! ## No-surrogate validity of flow scalars (C6) -/

theorem validc_append {xs ys : List Nat} (hx : ∀ c ∈ xs, ValidC c)
    (hy : ∀ c ∈ ys, ValidC c) : ∀ c ∈ xs ++ ys, ValidC c := by
  intro c hc
  rcases List.mem_append.mp hc with h | h
  · exact hx c h
  · exact hy c h

theorem validc_single {x : Nat} (h : ValidC x) : ∀ c ∈ [x], ValidC c := by
  intro c hc
  rw [List.mem_singleton] at hc
  rw [hc]
  exact h

theorem rdr_next_valid {l : List Nat} (h : ∀ c ∈ l, ValidC c) :
    ValidC (rdr_next l).1 ∧ ∀ c ∈ (rdr_next l).2, ValidC c := by
  cases l with
  | nil => exact ⟨by decide, by intro c hc; cases hc⟩
  | cons c rest =>
    refine ⟨h c (List.mem_cons_self c rest), fun d hd => h d ?_⟩
    exact List.mem_cons_of_mem c hd

theorem vs_pull_chars : ∀ (n : Nat) {s : Scanner}, VS s → VS (pull_chars n s) := by
  intro n
  induction n with
  | zero => intro s h; exact h
  | succ k ih =>
    intro s h
    simp only [pull_chars]
    apply ih
    obtain ⟨hb, hr⟩ := h
    obtain ⟨h1, h2⟩ := rdr_next_valid hr
    exact ⟨validc_append hb (validc_single h1), h2⟩

theorem vs_lookahead {n : Nat} {s : Scanner} (h : VS s) : VS (lookahead n s) := by
  rw [lookahead]
  split
  · exact h
  · exact vs_pull_chars _ h

theorem vs_skip {s : Scanner} (h : VS s) : VS (skip s) := by
  obtain ⟨hb, hr⟩ := h
  simp only [skip]
  split
  · exact ⟨fun c hc => hb c (List.mem_of_mem_tail hc), hr⟩
  · exact ⟨fun c hc => hb c (List.mem_of_mem_tail hc), hr⟩

theorem vs_skipN : ∀ (n : Nat) {s : Scanner}, VS s → VS (skipN n s) := by
  intro n
  induction n with
  | zero => intro s h; exact h
  | succ k ih => intro s h; exact ih (vs_skip h)

theorem vs_skip_line {s : Scanner} (h : VS s) : VS (skip_line s) := by
  rw [skip_line]
  split
  · exact vs_skip (vs_skip h)
  · split
    · exact vs_skip h
    · exact h

theorem vs_read_break {acc : List Nat} {s : Scanner} (h : VS s)
    (ha : ∀ c ∈ acc, ValidC c) :
    (∀ c ∈ (read_break acc s).1, ValidC c) ∧ VS (read_break acc s).2 := by
  rw [read_break]
  split
  · exact ⟨validc_append ha (validc_single (by decide : ValidC 10)), vs_skip (vs_skip h)⟩
  · split
    · exact ⟨validc_append ha (validc_single (by decide : ValidC 10)), vs_skip h⟩
    · exact ⟨ha, h⟩

theorem validc_ch {s : Scanner} (h : VS s) : ValidC (ch s) := by
  rcases hb : s.buffer with _ | ⟨c, rest⟩
  · simp only [ch, hb, List.headD_nil]
    decide
  · have hm := h.1 c (by rw [hb]; exact List.mem_cons_self c rest)
    simpa only [ch, hb, List.headD_cons] using hm

theorem validc_buf {s : Scanner} (h : VS s) (i : Nat) : ValidC (buf s i) := by
  rcases hx : s.buffer.get? i with _ | c
  · simp only [buf, List.getD, hx, Option.getD_none]
    decide
  · have hc : c ∈ s.buffer := List.get?_mem hx
    have hm := h.1 c hc
    simpa only [buf, List.getD, hx, Option.getD_some] using hm

theorem esc_simple_valid {e v : Nat} (h : esc_simple e = some v) : ValidC v := by
  unfold esc_simple at h
  split at h
  all_goals cases h
  all_goals decide

theorem char_from_u32_valid {n c : Nat} (h : char_from_u32 n = some c) : ValidC c := by
  unfold char_from_u32 at h
  split at h
  · cases h
    rename_i hcond
    simp at hcond
    show n < 1114112 ∧ ¬(55296 ≤ n ∧ n ≤ 57343)
    omega
  · cases h

theorem vs_sfs_hex_escape {m : Marker} {len : Nat} {s : Scanner} {c2 : Nat}
    {s' : Scanner} (h : sfs_hex_escape m len s = .ok c2 s') (hvs : VS s) :
    ValidC c2 ∧ VS s' := by
  simp only [sfs_hex_escape] at h
  split at h
  · cases h
  · split at h
    · cases h
    · rename_i c3 hcf
      cases h
      exact ⟨char_from_u32_valid hcf, vs_skipN _ (vs_lookahead (vs_skip (vs_skip hvs)))⟩

set_option maxHeartbeats 1000000 in
/-- The inner non-blank loop of scan_flow_scalar only appends Unicode
scalar values to the string when fed a valid state. -/
theorem vs_sfs_inner : ∀ {fuel : Nat} {single : Bool} {m : Marker} {string : List Nat}
    {s : Scanner} {a : List Nat × Bool} {s' : Scanner},
    sfs_inner fuel single m string s = .ok a s' → VS s → (∀ c ∈ string, ValidC c) →
    (∀ c ∈ a.1, ValidC c) ∧ VS s' := by
  intro fuel
  induction fuel with
  | zero => intro single m string s a s' h hvs hstr; cases h
  | succ n ih =>
    intro single m string s a s' h hvs hstr
    simp only [sfs_inner] at h
    repeat' split at h
    all_goals try cases h
    all_goals try exact ⟨hstr, hvs⟩
    all_goals try exact ⟨hstr, vs_skip_line (vs_skip (vs_lookahead hvs))⟩
    all_goals try exact ih h (vs_lookahead (vs_skip (vs_skip hvs))) (validc_append hstr (validc_single (by decide : ValidC 39)))
    all_goals try exact ih h (vs_lookahead (vs_skip hvs)) (validc_append hstr (validc_single (validc_ch hvs)))
    all_goals try (rename_i v hesc; exact ih h (vs_lookahead (vs_skip (vs_skip hvs))) (validc_append hstr (validc_single (esc_simple_valid hesc))))
    all_goals obtain ⟨c2, s1, h1, h⟩ := rbind_ok h
    all_goals obtain ⟨hc2, hvs1⟩ := vs_sfs_hex_escape h1 hvs
    all_goals exact ih h (vs_lookahead hvs1) (validc_append hstr (validc_single hc2))

set_option maxHeartbeats 1000000 in
/-- The blank loop of scan_flow_scalar keeps the whitespace and break
accumulators made of Unicode scalar values. -/
theorem vs_sfs_blanks : ∀ {fuel : Nat} {lblanks : Bool} {ws lb tb : List Nat}
    {s : Scanner} {a : Bool × List Nat × List Nat × List Nat} {s' : Scanner},
    sfs_blanks fuel lblanks ws lb tb s = .ok a s' → VS s →
    (∀ c ∈ ws, ValidC c) → (∀ c ∈ lb, ValidC c) → (∀ c ∈ tb, ValidC c) →
    ((∀ c ∈ a.2.1, ValidC c) ∧ (∀ c ∈ a.2.2.1, ValidC c) ∧ (∀ c ∈ a.2.2.2, ValidC c)) ∧
      VS s' := by
  intro fuel
  induction fuel with
  | zero => intro lblanks ws lb tb s a s' h hvs hws hlb htb; cases h
  | succ n ih =>
    intro lblanks ws lb tb s a s' h hvs hws hlb htb
    simp only [sfs_blanks] at h
    repeat' split at h
    all_goals try cases h
    all_goals try exact ⟨⟨hws, hlb, htb⟩, hvs⟩
    all_goals try exact ih h (vs_lookahead (vs_skip hvs)) hws hlb htb
    all_goals try exact ih h (vs_lookahead (vs_skip hvs)) (validc_append hws (validc_single (validc_ch hvs))) hlb htb
    all_goals try exact ih h (vs_lookahead (vs_read_break (vs_lookahead hvs) htb).2) hws hlb (vs_read_break (vs_lookahead hvs) htb).1
    all_goals exact ih h (vs_lookahead (vs_read_break (vs_lookahead hvs) hlb).2) (by intro c hc; cases hc) (vs_read_break (vs_lookahead hvs) hlb).1 htb

/-- The join step of scan_flow_scalar builds its four lists out of the
old ones, a folded space, and nothing else. -/
theorem validc_sfs_join {string lb tb ws : List Nat} {lblanks : Bool}
    (hs : ∀ c ∈ string, ValidC c) (hl : ∀ c ∈ lb, ValidC c)
    (ht : ∀ c ∈ tb, ValidC c) (hw : ∀ c ∈ ws, ValidC c) :
    (∀ c ∈ (sfs_join string lb tb ws lblanks).1, ValidC c) ∧
    (∀ c ∈ (sfs_join string lb tb ws lblanks).2.1, ValidC c) ∧
    (∀ c ∈ (sfs_join string lb tb ws lblanks).2.2.1, ValidC c) ∧
    (∀ c ∈ (sfs_join string lb tb ws lblanks).2.2.2, ValidC c) := by
  unfold sfs_join
  repeat' split
  all_goals refine ⟨?_, ?_, ?_, ?_⟩
  all_goals try exact validc_append (validc_append hs hl) ht
  all_goals try exact validc_append hs (validc_single (by decide : ValidC 32))
  all_goals try exact validc_append hs ht
  all_goals try exact validc_append hs hw
  all_goals try exact hl
  all_goals try exact ht
  all_goals try exact hw
  all_goals intro c hc
  all_goals cases hc

set_option maxHeartbeats 1000000 in
/-- The outer loop of scan_flow_scalar returns a string of Unicode
scalar values when fed a valid state and valid accumulators. -/
theorem vs_sfs_loop : ∀ {fuel : Nat} {single : Bool} {m : Marker}
    {string lb tb ws : List Nat} {s : Scanner} {a : List Nat} {s' : Scanner},
    sfs_loop fuel single m string lb tb ws s = .ok a s' → VS s →
    (∀ c ∈ string, ValidC c) → (∀ c ∈ lb, ValidC c) → (∀ c ∈ tb, ValidC c) →
    (∀ c ∈ ws, ValidC c) → (∀ c ∈ a, ValidC c) ∧ VS s' := by
  intro fuel
  induction fuel with
  | zero => intro single m string lb tb ws s a s' h hvs hstr hlb htb hws; cases h
  | succ n ih =>
    intro single m string lb tb ws s a s' h hvs hstr hlb htb hws
    simp only [sfs_loop] at h
    repeat' split at h
    all_goals try cases h
    · obtain ⟨sb, s1, h1, h⟩ := rbind_ok h
      obtain ⟨hsb, hvs1⟩ := vs_sfs_inner h1 (vs_lookahead (vs_lookahead hvs)) hstr
      split at h
      · cases h
        exact ⟨hsb, vs_lookahead hvs1⟩
      · obtain ⟨q, s2, h2, h⟩ := rbind_ok h
        obtain ⟨⟨hq1, hq2, hq3⟩, hvs2⟩ := vs_sfs_blanks h2 (vs_lookahead hvs1) hws hlb htb
        obtain ⟨hj1, hj2, hj3, hj4⟩ := validc_sfs_join hsb hq2 hq3 hq1
        exact ih h hvs2 hj1 hj2 hj3 hj4

/-- A scalar token returned by scan_flow_scalar from a valid state has
no invalid code point in its value. -/
theorem vs_scan_flow_scalar {fuel : Nat} {single : Bool} {s : Scanner} {tok : Token}
    {s' : Scanner} (h : scan_flow_scalar fuel single s = .ok tok s') (hvs : VS s) :
    ∀ sty v, tok.kind = .Scalar sty v → ∀ c ∈ v, ValidC c := by
  simp only [scan_flow_scalar] at h
  obtain ⟨a1, s1, h1, h⟩ := rbind_ok h
  have hv := vs_sfs_loop h1 (vs_skip hvs) (by simp) (by simp) (by simp) (by simp)
  split at h
  all_goals cases h
  all_goals intro sty v hk
  all_goals cases hk
  all_goals exact hv.1

/-- C6: in a double-quoted scalar, a hex escape with a non-hex digit
is an error, a hex escape assembling a non-scalar value (a surrogate)
is an error, an unknown escape letter is an error, and every Scalar
token scan_flow_scalar returns from a valid state (a state whose
buffered and pending characters are Unicode scalar values, as Rust
chars are) has no surrogate-range code point in its value. -/
theorem c6_double_quoted_escapes :
    (collect 100 (Scanner.new (cp "\"\\x0g\""))).map (fun p => p.2.error) =
      some (some ⟨⟨0, 1, 0⟩,
        "while parsing a quoted scalar, did not find expected hexadecimal number"⟩) ∧
    (collect 100 (Scanner.new (cp "\"\\ud800\""))).map (fun p => p.2.error) =
      some (some ⟨⟨0, 1, 0⟩,
        "while parsing a quoted scalar, found invalid Unicode character escape code"⟩) ∧
    (collect 100 (Scanner.new (cp "\"\\q\""))).map (fun p => p.2.error) =
      some (some ⟨⟨0, 1, 0⟩,
        "while parsing a quoted scalar, found unknown escape character"⟩) ∧
    ∀ (fuel : Nat) (single : Bool) (s : Scanner) (tok : Token) (s' : Scanner),
      VS s → scan_flow_scalar fuel single s = .ok tok s' →
      ∀ sty v, tok.kind = .Scalar sty v → ∀ c ∈ v, ¬(55296 ≤ c ∧ c ≤ 57343) := by
  refine ⟨by decide, by decide, by decide, ?_⟩
  intro fuel single s tok s' hvs h sty v hk c hc
  exact (vs_scan_flow_scalar h hvs sty v hk c hc).2

theorem c6_witness : ∃ tok s',
    scan_flow_scalar 50 false (lookahead 4 (Scanner.new (cp "\"a\""))) = .ok tok s' ∧
    ∀ sty v, tok.kind = .Scalar sty v → ∀ c ∈ v, ¬(55296 ≤ c ∧ c ≤ 57343) := by
  rcases hr : scan_flow_scalar 50 false (lookahead 4 (Scanner.new (cp "\"a\""))) with
    ⟨tok, s2⟩ | e | _
  · refine ⟨tok, s2, rfl, ?_⟩
    exact c6_double_quoted_escapes.2.2.2 50 false (lookahead 4 (Scanner.new (cp "\"a\"")))
      tok s2 (by decide) hr
  · have hx : res_val (scan_flow_scalar 50 false (lookahead 4 (Scanner.new (cp "\"a\"")))) ≠
        none := by decide
    rw [hr] at hx
    exact absurd rfl hx
  · have hx : res_val (scan_flow_scalar 50 false (lookahead 4 (Scanner.new (cp "\"a\"")))) ≠
        none := by decide
    rw [hr] at hx
    exact absurd rfl hx

/-! ## Stream tracking for the directive scan (C8) -/

theorem getD_replicate_zero : ∀ (k j : Nat), (List.replicate k (0 : Nat)).getD j 0 = 0
  | 0, _ => rfl
  | _ + 1, 0 => rfl
  | k + 1, j + 1 => getD_replicate_zero k j

theorem getD_append_zeros (l : List Nat) (k : Nat) : ∀ (i : Nat),
    (l ++ List.replicate k 0).getD i 0 = l.getD i 0 := by
  induction l with
  | nil => intro i; simp [getD_replicate_zero]
  | cons a l ih =>
    intro i
    cases i with
    | zero => rfl
    | succ j => exact ih j

theorem getD_append_left : ∀ (l l2 : List Nat) (i : Nat), i < l.length →
    (l ++ l2).getD i 0 = l.getD i 0
  | [], _, i, h => absurd h (by simp)
  | _ :: _, _, 0, _ => rfl
  | _ :: l, l2, i + 1, h => getD_append_left l l2 i (by simpa using h)

theorem headD_eq_getD (l : List Nat) : l.headD 0 = l.getD 0 0 := by
  cases l <;> rfl

theorem ch_eq_buf (s : Scanner) : ch s = buf s 0 := by
  unfold ch buf
  cases s.buffer <;> rfl

/-- Reading inside the buffer reads the tracked stream. -/
theorem seq_buf {s : Scanner} {l : List Nat} (h : SEq s l) {i : Nat}
    (hi : i < s.buffer.length) : buf s i = l.getD i 0 := by
  obtain ⟨k, hk⟩ := h
  have h1 : buf s i = (s.buffer ++ s.rdr).getD i 0 := (getD_append_left _ _ _ hi).symm
  rw [h1, hk, getD_append_zeros]

theorem seq_ch {s : Scanner} {l : List Nat} (h : SEq s l)
    (hlen : 1 ≤ s.buffer.length) : ch s = l.headD 0 := by
  rw [ch_eq_buf, seq_buf h hlen, headD_eq_getD]

theorem pull_chars_buffer_len : ∀ (n : Nat) (s : Scanner),
    (pull_chars n s).buffer.length = s.buffer.length + n := by
  intro n
  induction n with
  | zero => intro s; rfl
  | succ k ih =>
    intro s
    simp only [pull_chars]
    rw [ih]
    simp
    omega

theorem seq_pull_chars : ∀ (n : Nat) {s : Scanner} {l : List Nat},
    SEq s l → SEq (pull_chars n s) l := by
  intro n
  induction n with
  | zero => intro s l h; exact h
  | succ k ih =>
    intro s l h
    simp only [pull_chars]
    apply ih
    obtain ⟨m, hm⟩ := h
    rcases hr : s.rdr with _ | ⟨c, rest⟩
    · rw [hr] at hm
      simp only [List.append_nil] at hm
      refine ⟨m + 1, ?_⟩
      simp only [rdr_next, hr]
      rw [List.append_nil, hm, List.replicate_succ', List.append_assoc]
    · rw [hr] at hm
      refine ⟨m, ?_⟩
      simp only [rdr_next, hr]
      rw [List.append_assoc]
      simpa using hm

theorem seq_lookahead {n : Nat} {s : Scanner} {l : List Nat} (h : SEq s l) :
    SEq (lookahead n s) l := by
  rw [lookahead]
  split
  · exact h
  · exact seq_pull_chars _ h

theorem lookahead_len (n : Nat) (s : Scanner) : n ≤ (lookahead n s).buffer.length := by
  rw [lookahead]
  split
  · assumption
  · rw [pull_chars_buffer_len]
    omega

theorem seq_skip {s : Scanner} {c : Nat} {l : List Nat} (h : SEq s (c :: l))
    (hlen : 1 ≤ s.buffer.length) : SEq (skip s) l := by
  obtain ⟨k, hk⟩ := h
  have hb : (skip s).buffer = s.buffer.tail ∧ (skip s).rdr = s.rdr := by
    simp only [skip]
    split
    · exact ⟨rfl, rfl⟩
    · exact ⟨rfl, rfl⟩
  refine ⟨k, ?_⟩
  rw [hb.1, hb.2]
  rcases hbuf : s.buffer with _ | ⟨b0, brest⟩
  · rw [hbuf] at hlen
    simp at hlen
  · rw [hbuf] at hk
    simp only [List.cons_append, List.cons.injEq] at hk
    simpa using hk.2

theorem blankz_not_alpha {c : Nat} (h : is_blankz c = true) : is_alpha c = false := by
  simp [is_blankz, is_blank, is_breakz, is_break, is_z] at h
  simp [is_alpha]
  omega

theorem breakz_not_blank {c : Nat} (h : is_breakz c = true) : is_blank c = false := by
  simp [is_breakz, is_break, is_z] at h
  simp [is_blank]
  omega

/-- The directive-name loop consumes exactly the leading alphabetic
run of the stream. -/
theorem sdn_loop_spec : ∀ (name : List Nat) (fuel : Nat) (acc rest : List Nat) (s : Scanner),
    SEq s (name ++ rest) → 1 ≤ s.buffer.length →
    (∀ c ∈ name, is_alpha c = true) →
    is_alpha (rest.headD 0) = false →
    name.length + 1 ≤ fuel →
    ∃ s', sdn_loop fuel acc s = .ok (acc ++ name) s' ∧ SEq s' rest ∧
      1 ≤ s'.buffer.length := by
  intro name
  induction name with
  | nil =>
    intro fuel acc rest s hseq hlen halpha hstop hfuel
    rcases fuel with _ | f
    · omega
    · refine ⟨s, ?_, hseq, hlen⟩
      have hch : ch s = rest.headD 0 := seq_ch hseq hlen
      have hstop2 : is_alpha (rest.head?.getD 0) = false := by
        rcases rest with _ | ⟨r, l⟩ <;> simpa using hstop
      simp [sdn_loop, hch, hstop2]
  | cons c name2 ih =>
    intro fuel acc rest s hseq hlen halpha hstop hfuel
    rcases fuel with _ | f
    · simp at hfuel
    · have hch : ch s = c := by
        rw [seq_ch hseq hlen]
        rfl
      have halc : is_alpha c = true := halpha c (List.mem_cons_self c name2)
      have hs2 : SEq (lookahead 1 (skip s)) (name2 ++ rest) :=
        seq_lookahead (seq_skip hseq hlen)
      obtain ⟨s', hrun, hseq', hlen'⟩ := ih f (acc ++ [c]) rest _ hs2 (lookahead_len 1 _)
        (fun d hd => halpha d (List.mem_cons_of_mem c hd)) hstop (by simp at hfuel ⊢; omega)
      refine ⟨s', ?_, hseq', hlen'⟩
      simp [sdn_loop, hch, halc, hrun]

/-- The comment-skipping loop consumes exactly the leading run of
non-break characters. -/
theorem skip_while_spec : ∀ (mid : List Nat) (fuel : Nat) (rest : List Nat) (s : Scanner),
    SEq s (mid ++ rest) → 1 ≤ s.buffer.length →
    (∀ c ∈ mid, is_breakz c = false) →
    is_breakz (rest.headD 0) = true →
    mid.length + 1 ≤ fuel →
    ∃ s', skip_while_not_breakz fuel s = .ok () s' ∧ SEq s' rest ∧
      1 ≤ s'.buffer.length := by
  intro mid
  induction mid with
  | nil =>
    intro fuel rest s hseq hlen hmid hstop hfuel
    rcases fuel with _ | f
    · omega
    · refine ⟨s, ?_, hseq, hlen⟩
      have hch : ch s = rest.headD 0 := seq_ch hseq hlen
      have hstop2 : is_breakz (rest.head?.getD 0) = true := by
        rcases rest with _ | ⟨r, l⟩ <;> simpa using hstop
      simp [skip_while_not_breakz, hch, hstop2]
  | cons c mid2 ih =>
    intro fuel rest s hseq hlen hmid hstop hfuel
    rcases fuel with _ | f
    · simp at hfuel
    · have hch : ch s = c := by
        rw [seq_ch hseq hlen]
        rfl
      have hmc : is_breakz c = false := hmid c (List.mem_cons_self c mid2)
      have hs2 : SEq (lookahead 1 (skip s)) (mid2 ++ rest) :=
        seq_lookahead (seq_skip hseq hlen)
      obtain ⟨s', hrun, hseq', hlen'⟩ := ih f rest _ hs2 (lookahead_len 1 _)
        (fun d hd => hmid d (List.mem_cons_of_mem c hd)) hstop (by simp at hfuel ⊢; omega)
      refine ⟨s', ?_, hseq', hlen'⟩
      simp [skip_while_not_breakz, hch, hmc, hrun]

/-- skip_blanks stops at once on a non-blank character. -/
theorem skip_blanks_stop {fuel : Nat} {s : Scanner} (h : is_blank (ch s) = false)
    (hf : 1 ≤ fuel) : skip_blanks fuel s = .ok () s := by
  rcases fuel with _ | f
  · omega
  · simp [skip_blanks, h]

/-- scan_directive_name returns the leading alphabetic run when it is
nonempty and followed by a blank or break. -/
theorem scan_directive_name_spec (fuel : Nat) (name rest : List Nat) (s : Scanner)
    (hseq : SEq s (name ++ rest)) (hname : name ≠ [])
    (halpha : ∀ c ∈ name, is_alpha c = true)
    (hstop : is_blankz (rest.headD 0) = true)
    (hfuel : name.length + 1 ≤ fuel) :
    ∃ s', scan_directive_name fuel s = .ok name s' ∧ SEq s' rest ∧
      1 ≤ s'.buffer.length := by
  obtain ⟨s', hrun, hseq', hlen'⟩ := sdn_loop_spec name fuel [] rest _
    (seq_lookahead hseq) (lookahead_len 1 _) halpha (blankz_not_alpha hstop) hfuel
  refine ⟨s', ?_, hseq', hlen'⟩
  have hrun2 : sdn_loop fuel [] (lookahead 1 s) = .ok name s' := by simpa using hrun
  have hch : ch s' = rest.headD 0 := seq_ch hseq' hlen'
  have hstop2 : is_blankz (rest.head?.getD 0) = true := by
    rcases rest with _ | ⟨r, l⟩ <;> simpa using hstop
  have hne : name.isEmpty = false := by
    rcases name with _ | ⟨a, l⟩
    · exact absurd rfl hname
    · rfl
  simp [scan_directive_name, hrun2, hne, hch, hstop2]
  exact hname

/-- C8: a directive whose name is a nonempty alphabetic run other
than YAML and TAG, followed by a break-free rest of line and a line
feed, is not an error: scan_directive consumes everything up to and
including the line feed and returns a TagDirective token with empty
handle and prefix, marked at the % character. -/
theorem c8_unknown_directive (fuel : Nat) (name mid after : List Nat) (s : Scanner)
    (hseq : SEq s (37 :: (name ++ (mid ++ 10 :: after))))
    (hlen : 1 ≤ s.buffer.length)
    (hname : name ≠ [])
    (halpha : ∀ c ∈ name, is_alpha c = true)
    (hY : name ≠ [89, 65, 77, 76]) (hT : name ≠ [84, 65, 71])
    (hmid : ∀ c ∈ mid, is_breakz c = false)
    (hblank : is_blankz ((mid ++ 10 :: after).headD 0) = true)
    (hfuel : name.length + mid.length + 2 ≤ fuel) :
    ∃ s', scan_directive fuel s = .ok ⟨s.mark, .TagDirective [] []⟩ s' ∧ SEq s' after := by
  have hs1 : SEq (skip s) (name ++ (mid ++ 10 :: after)) := seq_skip hseq hlen
  obtain ⟨s2, hrun1, hseq2, hlen2⟩ := scan_directive_name_spec fuel name
    (mid ++ 10 :: after) (skip s) hs1 hname halpha hblank (by omega)
  obtain ⟨s3, hrun2, hseq3, hlen3⟩ := skip_while_spec mid fuel (10 :: after)
    (lookahead 1 s2) (seq_lookahead hseq2) (lookahead_len 1 _) hmid (by rfl) (by omega)
  have hch4 : ch (lookahead 1 s3) = 10 := by
    rw [seq_ch (seq_lookahead hseq3) (lookahead_len 1 _)]
    rfl
  have hsb : skip_blanks fuel (lookahead 1 s3) = .ok () (lookahead 1 s3) :=
    skip_blanks_stop (by rw [hch4]; decide) (by omega)
  have hbuf0 : buf (lookahead 2 (lookahead 1 s3)) 0 = 10 := by
    rw [seq_buf (seq_lookahead (seq_lookahead hseq3))
      (lt_of_lt_of_le (by decide) (lookahead_len 2 _))]
    rfl
  have hskipline : skip_line (lookahead 2 (lookahead 1 s3)) =
      skip (lookahead 2 (lookahead 1 s3)) := by
    rw [skip_line]
    simp [hbuf0, is_break]
  have hfin : SEq (skip (lookahead 2 (lookahead 1 s3))) after := by
    refine seq_skip (seq_lookahead (seq_lookahead hseq3)) ?_
    have := lookahead_len 2 (lookahead 1 s3)
    omega
  refine ⟨_, ?_, hfin⟩
  simp [scan_directive, hrun1, hY, hT, hrun2, hsb, hch4, hskipline,
    is_breakz, is_break, is_z]

theorem c8_witness : ∃ s',
    scan_directive 20 (lookahead 1 (Scanner.new (cp "%FOO bar\nx"))) =
      .ok ⟨⟨0, 1, 0⟩, .TagDirective [] []⟩ s' ∧ SEq s' [120] := by
  have h := c8_unknown_directive 20 [70, 79, 79] [32, 98, 97, 114] [120]
    (lookahead 1 (Scanner.new (cp "%FOO bar\nx")))
    ⟨0, by decide⟩ (by decide) (by decide) (by decide) (by decide) (by decide)
    (by decide) (by decide) (by decide)
  obtain ⟨s', hrun, hseq⟩ := h
  exact ⟨s', hrun, hseq⟩

end Yaml
